import Mathlib

/-!
Verification of the Phantom Relayer core against its specification.

The development shallowly embeds the relevant JavaScript source files:

* `src/backend/src/index.js` — Merkle accumulator (`rebuildIncrementalTree`,
  `buildFullMerkleTree`, `buildMerklePath`, `computeMerkleRootFromPath`) and
  the public-input normalizers (`normalizeMerklePath`,
  `normalizeMerkleIndices`, `normalizeJoinSplitPublicInputs`).
* `src/backend/src/validatorNetwork.js` — stake-weighted consensus
  (`ValidatorNetwork.verifyProof`), plus the appended `utils/bigint.js`
  (`toBigInt`, `toBigIntString`).
* the coordinator service (`POST /verify` tally loop).
* the proof-input builder (`generateSwapProof`) with its conservation,
  commitment-recomputation and Merkle self-check steps.

JavaScript BigInt values are embedded as `Int` (JS `%` on BigInt is the
truncated remainder, i.e. `Int.tmod`).  The MiMC7 compression function lives
in `mimc7.js`, which is not part of the sources here; every definition is
therefore parameterised by an arbitrary compression function
`H : Int → Int → Int`, and concrete test instances are supplied only in
witnesses.  Fallible code is embedded with `Except String`.
-/

namespace Relayer

/-- A binary compression function standing for `mimc7`.  The real MiMC7
round function is implemented in `mimc7.js` (not among the sources); all
tree and builder definitions take it as a parameter. -/
abbrev Hash := Int → Int → Int

/-! ### Per-level zero constants

`index.js` (`rebuildIncrementalTree` / `buildFullMerkleTree`):
`zeros = [0n]; for i in 1..depth-1: currentZero = mimc7(z, z); zeros.push`. -/

/-- `zeros H i` is the level-`i` zero subtree constant:
`zeros 0 = 0`, `zeros (i+1) = H (zeros i) (zeros i)`. -/
def zeros (H : Hash) : Nat → Int
  | 0 => 0
  | i + 1 => H (zeros H i) (zeros H i)

/-- The `zeros` array the code materialises: the ten constants
`zeros[0] .. zeros[depth-1]` for `depth = 10`. -/
def zerosList (H : Hash) : List Int :=
  (List.range 10).map (zeros H)

/-! ### Incremental tree state (`rebuildIncrementalTree`) -/

/-- State accumulated by `rebuildIncrementalTree`: the running root, the
per-level `filledSubtrees` array (initialised to `null`, i.e. `none`), and
the `nodeValues[level][position]` table of every node ever computed. -/
structure IncTree where
  root : Int
  filledSubtrees : List (Option Int)
  nodeValues : Nat → Nat → Option Int

/-- Update the node table at `(level, pos)`. -/
def setNode (nv : Nat → Nat → Option Int) (level pos : Nat) (v : Int) :
    Nat → Nat → Option Int :=
  fun l p => if l = level ∧ p = pos then some v else nv l p

/-- The inner level loop of the contract-style insertion
(`for i in 0..depth-1` inside `rebuildIncrementalTree`), processing levels
`i, i+1, …, 9`.  `idx` is the leaf index being inserted, `cur` the running
hash, `cidx` the current index at level `i`.  Fails (as the code throws)
when an odd position finds no filled subtree. -/
def insertLevels (H : Hash) (idx : Nat) :
    Nat → Nat → Int → Nat → List (Option Int) → (Nat → Nat → Option Int) →
    Except String (Int × List (Option Int) × (Nat → Nat → Option Int))
  | 0, _, cur, _, fs, nv => .ok (cur, fs, nv)
  | n + 1, i, cur, cidx, fs, nv =>
    if cidx % 2 = 0 then
      let fs' := fs.set i (some cur)
      let cur' := H cur ((zerosList H).getD i 0)
      let nv' := setNode nv (i + 1) (idx >>> (i + 1)) cur'
      insertLevels H idx n (i + 1) cur' (cidx / 2) fs' nv'
    else
      match fs.getD i none with
      | none => .error "filledSubtrees is null - tree state inconsistent"
      | some fsv =>
        let cur' := H fsv cur
        let nv' := setNode nv (i + 1) (idx >>> (i + 1)) cur'
        insertLevels H idx n (i + 1) cur' (cidx / 2) fs nv'

/-- Insert one leaf exactly as the contract's `IncrementalMerkleTree.insert`
replay does: record the leaf in `nodeValues[0][idx]` and walk the ten
levels. -/
def insertLeaf (H : Hash) (fs : List (Option Int)) (nv : Nat → Nat → Option Int)
    (idx : Nat) (leaf : Int) :
    Except String (Int × List (Option Int) × (Nat → Nat → Option Int)) :=
  insertLevels H idx 10 0 leaf idx fs (setNode nv 0 idx leaf)

/-- The `for (idx …)` loop of `rebuildIncrementalTree`, starting at leaf
index `start` with current state `(root, fs, nv)`. -/
def rebuildLoop (H : Hash) :
    Nat → IncTree → List Int → Except String IncTree
  | _, st, [] => .ok st
  | start, st, c :: cs => do
    let (r, fs, nv) ← insertLeaf H st.filledSubtrees st.nodeValues start c
    rebuildLoop H (start + 1) ⟨r, fs, nv⟩ cs

/-- `rebuildIncrementalTree(commitments)` from `index.js`: replay every
insertion with the contract's per-level filled-subtree algorithm.  The
initial root is `zeros[depth-1]`, `filledSubtrees` starts all-`null`,
`nodeValues` empty. -/
def rebuildIncrementalTree (H : Hash) (commitments : List Int) :
    Except String IncTree :=
  rebuildLoop H 0
    ⟨zeros H 9, List.replicate 10 none, fun _ _ => none⟩ commitments

/-! ### Full zero-padded rebuild (`buildFullMerkleTree`) -/

/-- Level 0 of `buildFullMerkleTree`: 1024 slots, commitment where present,
`zeros[0]` elsewhere. -/
def fullLevel0 (commitments : List Int) : List Int :=
  (List.range 1024).map fun i =>
    if i < commitments.length then commitments.getD i 0 else 0

/-- One pairing step: `curr[j] = H(prev[2j], prev[2j+1])` for
`j < prev.length >> 1`. -/
def pairLevel (H : Hash) (prev : List Int) : List Int :=
  (List.range (prev.length >>> 1)).map fun j =>
    H (prev.getD (2 * j) 0) (prev.getD (2 * j + 1) 0)

/-- The level `lev` array built by `buildFullMerkleTree` (level 0 = leaves). -/
def fullLevel (H : Hash) (commitments : List Int) : Nat → List Int
  | 0 => fullLevel0 commitments
  | lev + 1 => pairLevel H (fullLevel H commitments lev)

/-- The root of `buildFullMerkleTree`: the two entries of level `depth-1`
hashed once more. -/
def buildFullMerkleTreeRoot (H : Hash) (commitments : List Int) : Int :=
  let top := fullLevel H commitments 9
  H (top.getD 0 0) (top.getD 1 0)

/-! ### Authentication paths (`buildMerklePath`, `computeMerkleRootFromPath`) -/

/-- `buildMerklePath(commitments, targetIndex)` from `index.js`: rebuild the
incremental tree, then for each level take the stored sibling node value
(or the level zero when absent).  Returns `(path, indices, root)`; throws on
an out-of-range index. -/
def buildMerklePath (H : Hash) (commitments : List Int) (targetIndex : Nat) :
    Except String (List Int × List Int × Int) := do
  if targetIndex ≥ commitments.length then
    .error "buildMerklePath: index out of range"
  else do
    let st ← rebuildIncrementalTree H commitments
    let path := (List.range 10).map fun i =>
      let pos := targetIndex >>> i
      let siblingPos := pos ^^^ 1
      match st.nodeValues i siblingPos with
      | some v => v
      | none => (zerosList H).getD i 0
    let indices := (List.range 10).map fun i => (((targetIndex >>> i) % 2 : Nat) : Int)
    .ok (path, indices, st.root)

/-- `computeMerkleRootFromPath` from `index.js`: fold the ten path levels,
putting the running value left when the index bit is `0` and right when it
is `1` (missing entries default to `"0"`). -/
def computeMerkleRootFromPath (H : Hash) (leafValue : Int)
    (merklePath : List Int) (merklePathIndices : List Int) : Int :=
  (List.range 10).foldl
    (fun current i =>
      let pathVal := merklePath.getD i 0
      let idx := merklePathIndices.getD i 0
      if idx = 0 then H current pathVal else H pathVal current)
    leafValue

end Relayer

namespace Relayer

/-! ### Reference semantics: zero-padded subtree values

`node H l ℓ p` is the value of the node at level `ℓ`, position `p`, of the
depth-10 zero-padded Merkle tree over the leaf list `l`.  Every tree
function above is related to this semantics below. -/

/-- Node value at `(level, pos)` of the zero-padded tree over leaves `l`. -/
def node (H : Hash) (l : List Int) : Nat → Nat → Int
  | 0, p => l.getD p 0
  | ℓ + 1, p => H (node H l ℓ (2 * p)) (node H l ℓ (2 * p + 1))

theorem node_nil (H : Hash) (ℓ : Nat) : ∀ p, node H [] ℓ p = zeros H ℓ := by
  induction ℓ with
  | zero => intro p; simp [node, zeros]
  | succ ℓ ih => intro p; simp [node, zeros, ih]

/-- Every leaf under the node is past the end of the list, so the node is
the level zero constant. -/
theorem node_of_length_le (H : Hash) (l : List Int) (ℓ : Nat) :
    ∀ p, l.length ≤ p * 2 ^ ℓ → node H l ℓ p = zeros H ℓ := by
  induction ℓ with
  | zero =>
    intro p h
    simp only [pow_zero, mul_one] at h
    simp only [node, zeros]
    exact List.getD_eq_default _ _ h
  | succ ℓ ih =>
    intro p h
    have h1 : l.length ≤ 2 * p * 2 ^ ℓ := by
      calc l.length ≤ p * 2 ^ (ℓ + 1) := h
        _ = 2 * p * 2 ^ ℓ := by ring
    have h2 : l.length ≤ (2 * p + 1) * 2 ^ ℓ := by
      calc l.length ≤ 2 * p * 2 ^ ℓ := h1
        _ ≤ (2 * p + 1) * 2 ^ ℓ := by
            exact Nat.mul_le_mul_right _ (by omega)
    simp [node, zeros, ih _ h1, ih _ h2]

/-- Appending a new leaf beyond the node's footprint leaves the node
unchanged. -/
theorem node_append_of_le (H : Hash) (l : List Int) (x : Int) (ℓ : Nat) :
    ∀ p, (p + 1) * 2 ^ ℓ ≤ l.length → node H (l ++ [x]) ℓ p = node H l ℓ p := by
  induction ℓ with
  | zero =>
    intro p h
    simp only [pow_zero, mul_one] at h
    have hp : p < l.length := by omega
    simp only [node]
    rw [List.getD_eq_getElem?_getD, List.getD_eq_getElem?_getD,
      List.getElem?_append_left hp]
  | succ ℓ ih =>
    intro p h
    have h1 : (2 * p + 1) * 2 ^ ℓ ≤ l.length := by
      calc (2 * p + 1) * 2 ^ ℓ ≤ (2 * p + 2) * 2 ^ ℓ :=
            Nat.mul_le_mul_right _ (by omega)
        _ = (p + 1) * 2 ^ (ℓ + 1) := by ring
        _ ≤ l.length := h
    have h3 : (2 * p + 2) * 2 ^ ℓ ≤ l.length := by
      calc (2 * p + 2) * 2 ^ ℓ = (p + 1) * 2 ^ (ℓ + 1) := by ring
        _ ≤ l.length := h
    have h4 : (2 * p + 1 + 1) * 2 ^ ℓ ≤ l.length := by
      have he : 2 * p + 1 + 1 = 2 * p + 2 := by omega
      rw [he]; exact h3
    simp only [node]
    rw [ih _ h1, ih _ h4]

theorem zerosList_getD (H : Hash) (i : Nat) (h : i < 10) :
    (zerosList H).getD i 0 = zeros H i := by
  rw [zerosList, List.getD_eq_getElem?_getD, List.getElem?_map,
    List.getElem?_range h]
  rfl

theorem map_range_getD (f : Nat → Int) (n i : Nat) (h : i < n) :
    ((List.range n).map f).getD i 0 = f i := by
  rw [List.getD_eq_getElem?_getD, List.getElem?_map, List.getElem?_range h]
  rfl

theorem lt_succ_div_mul (a b : Nat) (hb : 0 < b) : a < (a / b + 1) * b := by
  have h := Nat.div_add_mod a b
  have h2 := Nat.mod_lt a hb
  calc a = b * (a / b) + a % b := h.symm
    _ < b * (a / b) + b := by omega
    _ = (a / b + 1) * b := by ring

theorem div_succ_eq_or (k b : Nat) (hb : 0 < b) :
    (k + 1) / b = k / b ∨ (k + 1) / b = k / b + 1 := by
  have hle : k / b ≤ (k + 1) / b := Nat.div_le_div_right (by omega)
  have hle2 : (k + 1) / b ≤ k / b + 1 := by
    have h : k + 1 ≤ k + b := by omega
    calc (k + 1) / b ≤ (k + b) / b := Nat.div_le_div_right h
      _ = k / b + 1 := by rw [Nat.add_div_right _ hb]
  omega

theorem le_div_of_mul_le (p ℓ k : Nat) (h : p * 2 ^ ℓ < k) : p ≤ k / 2 ^ ℓ :=
  (Nat.le_div_iff_mul_le (Nat.pos_pow_of_pos ℓ (by norm_num))).mpr (by omega)

theorem xor_one_of_even (p : Nat) (h : p % 2 = 0) : p ^^^ 1 = p + 1 := by
  obtain ⟨q, rfl⟩ : ∃ q, p = 2 * q := ⟨p / 2, by omega⟩
  apply Nat.eq_of_testBit_eq
  intro i
  cases i with
  | zero => simp [Nat.mul_add_mod, Nat.add_mod]
  | succ i =>
    rw [Nat.testBit_xor, Nat.testBit_succ, Nat.testBit_succ, Nat.testBit_succ]
    have h1 : 2 * q / 2 = q := by omega
    have h2 : (2 * q + 1) / 2 = q := by omega
    have h3 : (1 : Nat) / 2 = 0 := by norm_num
    rw [h1, h2, h3]
    simp

theorem xor_one_of_odd (p : Nat) (h : p % 2 = 1) : p ^^^ 1 = p - 1 := by
  obtain ⟨q, rfl⟩ : ∃ q, p = 2 * q + 1 := ⟨p / 2, by omega⟩
  apply Nat.eq_of_testBit_eq
  intro i
  cases i with
  | zero => simp [Nat.mul_add_mod, Nat.add_mod]
  | succ i =>
    rw [Nat.testBit_xor, Nat.testBit_succ, Nat.testBit_succ, Nat.testBit_succ]
    have h0 : 2 * q + 1 - 1 = 2 * q := by omega
    have h1 : 2 * q / 2 = q := by omega
    have h2 : (2 * q + 1) / 2 = q := by omega
    have h3 : (1 : Nat) / 2 = 0 := by norm_num
    rw [h0, h1, h2, h3]
    simp

end Relayer

namespace Relayer

theorem getD_set_ne (fs : List (Option Int)) (i j : Nat) (v : Option Int)
    (h : i ≠ j) : (fs.set i v).getD j none = fs.getD j none := by
  rw [List.getD_eq_getElem?_getD, List.getD_eq_getElem?_getD,
    List.getElem?_set_ne h]

theorem getD_set_self (fs : List (Option Int)) (i : Nat) (v : Option Int)
    (h : i < fs.length) : (fs.set i v).getD i none = v := by
  rw [List.getD_eq_getElem?_getD, List.getElem?_set_self h]
  rfl

theorem div_pow_succ (k i : Nat) : k / 2 ^ i / 2 = k / 2 ^ (i + 1) := by
  rw [Nat.div_div_eq_div_mul, pow_succ]

/-- Behaviour of the level loop of the contract insertion: starting from a
correct partial hash at level `i` and filled subtrees describing the tree
over `l`, it returns the root of the zero-padded tree over `l ++ [x]`, with
`filledSubtrees` and `nodeValues` updated to describe `l ++ [x]`. -/
theorem insertLevels_spec (H : Hash) (l : List Int) (x : Int)
    (hlen : l.length < 1024) :
    ∀ (n i : Nat), n + i = 10 → ∀ (cur : Int) (fs : List (Option Int))
      (nv : Nat → Nat → Option Int),
      fs.length = 10 →
      cur = node H (l ++ [x]) i (l.length / 2 ^ i) →
      (∀ j, i ≤ j → j < 10 → (l.length / 2 ^ j) % 2 = 1 →
        fs.getD j none = some (node H l j (l.length / 2 ^ j - 1))) →
      ∃ fs' nv',
        insertLevels H l.length n i cur (l.length / 2 ^ i) fs nv =
          .ok (node H (l ++ [x]) 10 0, fs', nv') ∧
        fs'.length = 10 ∧
        (∀ j, j < 10 → fs'.getD j none =
          if i ≤ j ∧ (l.length / 2 ^ j) % 2 = 0
          then some (node H (l ++ [x]) j (l.length / 2 ^ j))
          else fs.getD j none) ∧
        (∀ ℓ p, nv' ℓ p =
          if i < ℓ ∧ ℓ ≤ 10 ∧ p = l.length / 2 ^ ℓ
          then some (node H (l ++ [x]) ℓ p)
          else nv ℓ p) := by
  intro n
  induction n with
  | zero =>
    intro i hni cur fs nv hfsl hcur hfs
    have hieq : i = 10 := by omega
    subst hieq
    refine ⟨fs, nv, ?_, hfsl, ?_, ?_⟩
    · show Except.ok (cur, fs, nv) = _
      rw [hcur, Nat.div_eq_of_lt (by omega : l.length < 2 ^ 10)]
    · intro j hj
      rw [if_neg (by omega)]
    · intro ℓ p
      rw [if_neg (by omega)]
  | succ n ih =>
    intro i hni cur fs nv hfsl hcur hfs
    have h10 : i < 10 := by omega
    rw [insertLevels]
    have hq : l.length / 2 ^ i / 2 = l.length / 2 ^ (i + 1) := div_pow_succ _ _
    have hsh : l.length >>> (i + 1) = l.length / 2 ^ (i + 1) :=
      Nat.shiftRight_eq_div_pow _ _
    by_cases hpar : l.length / 2 ^ i % 2 = 0
    · rw [if_pos hpar]
      simp only []
      -- the even branch: store `cur`, pair with the level zero
      have hd2 : l.length / 2 ^ i = 2 * (l.length / 2 ^ (i + 1)) := by
        rw [← hq]
        generalize l.length / 2 ^ i = a at hpar ⊢
        omega
      have hz : (zerosList H).getD i 0 = zeros H i := zerosList_getD H i h10
      have hsib : node H (l ++ [x]) i (l.length / 2 ^ i + 1) = zeros H i := by
        apply node_of_length_le
        have hlt : l.length < (l.length / 2 ^ i + 1) * 2 ^ i :=
          lt_succ_div_mul _ _ (Nat.pos_pow_of_pos i (by norm_num))
        simp only [List.length_append, List.length_singleton]
        omega
      have hcur' : H cur ((zerosList H).getD i 0) =
          node H (l ++ [x]) (i + 1) (l.length / 2 ^ (i + 1)) := by
        rw [hz, hcur]
        show H (node H (l ++ [x]) i (l.length / 2 ^ i)) (zeros H i) =
          node H (l ++ [x]) (i + 1) (l.length / 2 ^ (i + 1))
        rw [show node H (l ++ [x]) (i + 1) (l.length / 2 ^ (i + 1)) =
            H (node H (l ++ [x]) i (2 * (l.length / 2 ^ (i + 1))))
              (node H (l ++ [x]) i (2 * (l.length / 2 ^ (i + 1)) + 1)) from rfl]
        rw [← hd2]
        rw [hsib]
      obtain ⟨fs'', nv'', heq, hl'', hfs'', hnv''⟩ :=
        ih (i + 1) (by omega)
          (H cur ((zerosList H).getD i 0))
          (fs.set i (some cur))
          (setNode nv (i + 1) (l.length >>> (i + 1))
            (H cur ((zerosList H).getD i 0)))
          (by rw [List.length_set]; exact hfsl)
          hcur'
          (by
            intro j hj hj10 hjodd
            rw [getD_set_ne _ _ _ _ (by omega)]
            exact hfs j (by omega) hj10 hjodd)
      refine ⟨fs'', nv'', ?_, hl'', ?_, ?_⟩
      · rw [← heq, hq]
      · intro j hj
        rw [hfs'' j hj]
        by_cases hij : i + 1 ≤ j
        · by_cases hje : l.length / 2 ^ j % 2 = 0
          · rw [if_pos ⟨hij, hje⟩, if_pos ⟨by omega, hje⟩]
          · rw [if_neg (by tauto), if_neg (by tauto),
              getD_set_ne _ _ _ _ (by omega)]
        · have hji : j ≤ i := by omega
          by_cases hjeq : j = i
          · subst hjeq
            rw [if_neg (by omega), getD_set_self _ _ _ (by omega),
              if_pos ⟨le_refl j, hpar⟩, hcur]
          · rw [if_neg (by omega), getD_set_ne _ _ _ _ (by omega),
              if_neg (by omega)]
      · intro ℓ p
        rw [hnv'' ℓ p]
        by_cases hc1 : i + 1 < ℓ ∧ ℓ ≤ 10 ∧ p = l.length / 2 ^ ℓ
        · rw [if_pos hc1, if_pos ⟨by omega, hc1.2⟩]
        · rw [if_neg hc1]
          by_cases hc2 : ℓ = i + 1 ∧ p = l.length / 2 ^ (i + 1)
          · obtain ⟨he, hp⟩ := hc2
            subst he; subst hp
            rw [show setNode nv (i + 1) (l.length >>> (i + 1))
                (H cur ((zerosList H).getD i 0)) (i + 1)
                (l.length / 2 ^ (i + 1)) =
                some (H cur ((zerosList H).getD i 0)) from by
              rw [setNode, if_pos ⟨rfl, hsh.symm⟩]]
            rw [if_pos ⟨by omega, by omega, rfl⟩, hcur']
          · rw [setNode]
            rw [if_neg (by
              intro hcon
              exact hc2 ⟨hcon.1, by rw [hcon.2, hsh]⟩)]
            rw [if_neg (by
              intro hcon
              obtain ⟨ha, hb, hcc⟩ := hcon
              by_cases hℓ : ℓ = i + 1
              · exact hc2 ⟨hℓ, by rw [← hℓ]; exact hcc⟩
              · exact hc1 ⟨by omega, hb, hcc⟩)]
    · rw [if_neg hpar]
      have hodd : l.length / 2 ^ i % 2 = 1 := by omega
      have hfsi := hfs i (le_refl i) h10 hodd
      rw [hfsi]
      simp only []
      have hd1 : 1 ≤ l.length / 2 ^ i := by
        generalize l.length / 2 ^ i = a at hodd ⊢
        omega
      have hd2 : l.length / 2 ^ i = 2 * (l.length / 2 ^ (i + 1)) + 1 := by
        rw [← hq]
        generalize l.length / 2 ^ i = a at hodd ⊢
        omega
      have hprev : node H (l ++ [x]) i (l.length / 2 ^ i - 1) =
          node H l i (l.length / 2 ^ i - 1) := by
        apply node_append_of_le
        have h1 : (l.length / 2 ^ i - 1 + 1) = l.length / 2 ^ i := by omega
        rw [h1]
        exact Nat.div_mul_le_self _ _
      have hcur' : H (node H l i (l.length / 2 ^ i - 1)) cur =
          node H (l ++ [x]) (i + 1) (l.length / 2 ^ (i + 1)) := by
        rw [show node H (l ++ [x]) (i + 1) (l.length / 2 ^ (i + 1)) =
            H (node H (l ++ [x]) i (2 * (l.length / 2 ^ (i + 1))))
              (node H (l ++ [x]) i (2 * (l.length / 2 ^ (i + 1)) + 1)) from rfl]
        rw [show 2 * (l.length / 2 ^ (i + 1)) + 1 = l.length / 2 ^ i from by omega]
        rw [show 2 * (l.length / 2 ^ (i + 1)) = l.length / 2 ^ i - 1 from by omega]
        rw [hprev, hcur]
      obtain ⟨fs'', nv'', heq, hl'', hfs'', hnv''⟩ :=
        ih (i + 1) (by omega)
          (H (node H l i (l.length / 2 ^ i - 1)) cur)
          fs
          (setNode nv (i + 1) (l.length >>> (i + 1))
            (H (node H l i (l.length / 2 ^ i - 1)) cur))
          hfsl
          hcur'
          (fun j hj hj10 hjodd => hfs j (by omega) hj10 hjodd)
      refine ⟨fs'', nv'', ?_, hl'', ?_, ?_⟩
      · rw [← heq, hq]
      · intro j hj
        rw [hfs'' j hj]
        by_cases hij : i + 1 ≤ j
        · by_cases hje : l.length / 2 ^ j % 2 = 0
          · rw [if_pos ⟨hij, hje⟩, if_pos ⟨by omega, hje⟩]
          · rw [if_neg (by tauto), if_neg (by tauto)]
        · by_cases hjeq : j = i
          · subst hjeq
            rw [if_neg (by omega), if_neg (by
              intro hcon
              exact hpar hcon.2)]
          · rw [if_neg (by omega), if_neg (by omega)]
      · intro ℓ p
        rw [hnv'' ℓ p]
        by_cases hc1 : i + 1 < ℓ ∧ ℓ ≤ 10 ∧ p = l.length / 2 ^ ℓ
        · rw [if_pos hc1, if_pos ⟨by omega, hc1.2⟩]
        · rw [if_neg hc1]
          by_cases hc2 : ℓ = i + 1 ∧ p = l.length / 2 ^ (i + 1)
          · obtain ⟨he, hp⟩ := hc2
            subst he; subst hp
            rw [show setNode nv (i + 1) (l.length >>> (i + 1))
                (H (node H l i (l.length / 2 ^ i - 1)) cur) (i + 1)
                (l.length / 2 ^ (i + 1)) =
                some (H (node H l i (l.length / 2 ^ i - 1)) cur) from by
              rw [setNode, if_pos ⟨rfl, hsh.symm⟩]]
            rw [if_pos ⟨by omega, by omega, rfl⟩, hcur']
          · rw [setNode]
            rw [if_neg (by
              intro hcon
              exact hc2 ⟨hcon.1, by rw [hcon.2, hsh]⟩)]
            rw [if_neg (by
              intro hcon
              obtain ⟨ha, hb, hcc⟩ := hcon
              by_cases hℓ : ℓ = i + 1
              · exact hc2 ⟨hℓ, by rw [← hℓ]; exact hcc⟩
              · exact hc1 ⟨by omega, hb, hcc⟩)]

end Relayer

namespace Relayer

theorem insertLeaf_spec (H : Hash) (l : List Int) (x : Int)
    (hlen : l.length < 1024) (fs : List (Option Int))
    (nv : Nat → Nat → Option Int) (hfsl : fs.length = 10)
    (hfs : ∀ j, j < 10 → (l.length / 2 ^ j) % 2 = 1 →
      fs.getD j none = some (node H l j (l.length / 2 ^ j - 1))) :
    ∃ fs' nv',
      insertLeaf H fs nv l.length x = .ok (node H (l ++ [x]) 10 0, fs', nv') ∧
      fs'.length = 10 ∧
      (∀ j, j < 10 → fs'.getD j none =
        if (l.length / 2 ^ j) % 2 = 0
        then some (node H (l ++ [x]) j (l.length / 2 ^ j))
        else fs.getD j none) ∧
      (∀ ℓ p, nv' ℓ p =
        if ℓ ≤ 10 ∧ p = l.length / 2 ^ ℓ
        then some (node H (l ++ [x]) ℓ p)
        else nv ℓ p) := by
  have hc0 : l.length / 2 ^ 0 = l.length := by simp
  have hx : x = node H (l ++ [x]) 0 (l.length / 2 ^ 0) := by
    rw [hc0]
    show x = (l ++ [x]).getD l.length 0
    rw [List.getD_eq_getElem?_getD, List.getElem?_concat_length]
    rfl
  obtain ⟨fs', nv', heq, h1, h2, h3⟩ :=
    insertLevels_spec H l x hlen 10 0 (by omega) x fs (setNode nv 0 l.length x)
      hfsl hx (fun j _ hj hodd => hfs j hj hodd)
  rw [hc0] at heq
  refine ⟨fs', nv', heq, h1, ?_, ?_⟩
  · intro j hj
    rw [h2 j hj]
    by_cases he : l.length / 2 ^ j % 2 = 0
    · rw [if_pos ⟨by omega, he⟩, if_pos he]
    · rw [if_neg (by tauto), if_neg he]
  · intro ℓ p
    rw [h3 ℓ p]
    match ℓ with
    | 0 =>
      rw [if_neg (by omega)]
      rw [setNode]
      by_cases hp : p = l.length
      · subst hp
        rw [if_pos ⟨rfl, rfl⟩, if_pos ⟨by omega, by rw [hc0]⟩]
        show some x = some ((l ++ [x]).getD l.length 0)
        rw [List.getD_eq_getElem?_getD, List.getElem?_concat_length]
        rfl
      · rw [if_neg (by tauto), if_neg (by
          intro hcon
          exact hp (by rw [hcon.2, hc0]))]
    | ℓ + 1 =>
      by_cases hc : ℓ + 1 ≤ 10 ∧ p = l.length / 2 ^ (ℓ + 1)
      · rw [if_pos ⟨by omega, hc.1, hc.2⟩, if_pos hc]
      · rw [if_neg (by
          intro hcon
          exact hc ⟨hcon.2.1, hcon.2.2⟩), if_neg hc]
        rw [setNode, if_neg (by omega)]

/-- The filled-subtree table describes the tree over `l`: at each level
where the next insert position is odd, the left sibling value is stored. -/
def FsDescr (H : Hash) (l : List Int) (fs : List (Option Int)) : Prop :=
  fs.length = 10 ∧ ∀ j, j < 10 → (l.length / 2 ^ j) % 2 = 1 →
    fs.getD j none = some (node H l j (l.length / 2 ^ j - 1))

/-- The node-value table holds exactly the nodes whose subtree contains at
least one inserted leaf, with the zero-padded tree value. -/
def NvDescr (H : Hash) (l : List Int) (nv : Nat → Nat → Option Int) : Prop :=
  ∀ ℓ p, nv ℓ p =
    if ℓ ≤ 10 ∧ p * 2 ^ ℓ < l.length then some (node H l ℓ p) else none

theorem rebuildLoop_append (H : Hash) (l₁ : List Int) :
    ∀ (s : Nat) (st : IncTree) (l₂ : List Int),
      rebuildLoop H s st (l₁ ++ l₂) =
        (rebuildLoop H s st l₁).bind
          (fun st' => rebuildLoop H (s + l₁.length) st' l₂) := by
  induction l₁ with
  | nil => intro s st l₂; rfl
  | cons c cs ih =>
    intro s st l₂
    simp only [List.cons_append, rebuildLoop]
    cases insertLeaf H st.filledSubtrees st.nodeValues s c with
    | error e => rfl
    | ok v =>
      obtain ⟨r, fs, nv⟩ := v
      show rebuildLoop H (s + 1) ⟨r, fs, nv⟩ (cs ++ l₂) = _
      rw [ih]
      have hs : s + 1 + cs.length = s + (c :: cs).length := by
        simp [List.length_cons]; omega
      rw [hs]
      rfl

theorem rebuild_spec (H : Hash) (l : List Int) (hl : l.length ≤ 1024) :
    ∃ st : IncTree, rebuildIncrementalTree H l = .ok st ∧
      st.root = (if l = [] then zeros H 9 else node H l 10 0) ∧
      FsDescr H l st.filledSubtrees ∧ NvDescr H l st.nodeValues := by
  induction l using List.reverseRecOn with
  | nil =>
    refine ⟨_, rfl, by simp, ⟨by simp, ?_⟩, ?_⟩
    · intro j hj hodd
      simp at hodd
    · intro ℓ p
      rw [if_neg (by simp)]
  | append_singleton l x ih =>
    have hlen : l.length < 1024 := by
      have := hl
      simp only [List.length_append, List.length_singleton] at this
      omega
    obtain ⟨st, hst, hroot, ⟨hfsl, hfs⟩, hnv⟩ := ih (by omega)
    obtain ⟨fs', nv', heq, h1, h2, h3⟩ :=
      insertLeaf_spec H l x hlen st.filledSubtrees st.nodeValues hfsl hfs
    refine ⟨⟨node H (l ++ [x]) 10 0, fs', nv'⟩, ?_, ?_, ⟨h1, ?_⟩, ?_⟩
    · show rebuildLoop H 0 _ (l ++ [x]) = _
      rw [rebuildLoop_append]
      rw [show rebuildLoop H 0 ⟨zeros H 9, List.replicate 10 none,
        fun _ _ => none⟩ l = rebuildIncrementalTree H l from rfl]
      rw [hst]
      show rebuildLoop H (0 + l.length) st [x] = _
      simp only [Nat.zero_add, rebuildLoop, heq]
      rfl
    · rw [if_neg (by simp)]
    · intro j hj hodd
      simp only [List.length_append, List.length_singleton] at hodd ⊢
      have hpos : 0 < 2 ^ j := Nat.pos_pow_of_pos j (by norm_num)
      have hcases := div_succ_eq_or l.length (2 ^ j) hpos
      rw [h2 j hj]
      by_cases hev : l.length / 2 ^ j % 2 = 0
      · rw [if_pos hev]
        have hstep : (l.length + 1) / 2 ^ j = l.length / 2 ^ j + 1 := by
          rcases hcases with hA | hB
          · rw [hA] at hodd
            exact absurd hodd (by
              generalize l.length / 2 ^ j = a at hev ⊢
              omega)
          · exact hB
        rw [hstep]
        simp
      · rw [if_neg hev]
        have hoddl : l.length / 2 ^ j % 2 = 1 := by
          generalize l.length / 2 ^ j = a at hev ⊢
          omega
        have hstep : (l.length + 1) / 2 ^ j = l.length / 2 ^ j := by
          rcases hcases with hA | hB
          · exact hA
          · rw [hB] at hodd
            exact absurd hodd (by
              generalize l.length / 2 ^ j = a at hoddl ⊢
              omega)
        rw [hstep, hfs j hj hoddl]
        have hd1 : 1 ≤ l.length / 2 ^ j := by
          generalize l.length / 2 ^ j = a at hoddl ⊢
          omega
        rw [node_append_of_le H l x j _ (by
          rw [show l.length / 2 ^ j - 1 + 1 = l.length / 2 ^ j from by
            generalize l.length / 2 ^ j = a at hd1 ⊢
            omega]
          exact Nat.div_mul_le_self _ _)]
    · simp only [NvDescr]
      intro ℓ p
      rw [h3 ℓ p]
      simp only [List.length_append, List.length_singleton]
      have hpos : 0 < 2 ^ ℓ := Nat.pos_pow_of_pos ℓ (by norm_num)
      by_cases hc : ℓ ≤ 10 ∧ p = l.length / 2 ^ ℓ
      · rw [if_pos hc]
        have hle : p * 2 ^ ℓ ≤ l.length := by
          rw [hc.2]; exact Nat.div_mul_le_self _ _
        rw [if_pos ⟨hc.1, by
          generalize p * 2 ^ ℓ = m at hle ⊢
          omega⟩]
      · rw [if_neg hc, hnv ℓ p]
        by_cases hℓ : ℓ ≤ 10
        · have hp : p ≠ l.length / 2 ^ ℓ := fun h => hc ⟨hℓ, h⟩
          by_cases hlt : p * 2 ^ ℓ < l.length
          · rw [if_pos ⟨hℓ, hlt⟩, if_pos ⟨hℓ, by
              generalize p * 2 ^ ℓ = m at hlt ⊢
              omega⟩]
            have hple : p ≤ l.length / 2 ^ ℓ := le_div_of_mul_le p ℓ _ hlt
            have hplt : p < l.length / 2 ^ ℓ := by
              generalize l.length / 2 ^ ℓ = a at hple hp ⊢
              omega
            rw [node_append_of_le H l x ℓ p (by
              calc (p + 1) * 2 ^ ℓ ≤ (l.length / 2 ^ ℓ) * 2 ^ ℓ :=
                    Nat.mul_le_mul_right _ (by
                      generalize l.length / 2 ^ ℓ = a at hplt ⊢
                      omega)
                _ ≤ l.length := Nat.div_mul_le_self _ _)]
          · rw [if_neg (by tauto)]
            have hne : p * 2 ^ ℓ ≠ l.length := by
              intro hcon
              apply hp
              rw [← hcon, Nat.mul_div_cancel p hpos]
            rw [if_neg (by
              intro hcon
              have h2' := hcon.2
              generalize p * 2 ^ ℓ = m at hne hlt h2' ⊢
              omega)]
        · rw [if_neg (by tauto), if_neg (by tauto)]

end Relayer

namespace Relayer

theorem fullLevel_length (H : Hash) (l : List Int) :
    ∀ lev, (fullLevel H l lev).length = 1024 / 2 ^ lev := by
  intro lev
  induction lev with
  | zero => simp [fullLevel, fullLevel0]
  | succ lev ih =>
    show (pairLevel H (fullLevel H l lev)).length = _
    rw [pairLevel, List.length_map, List.length_range, ih,
      Nat.shiftRight_eq_div_pow, pow_one, div_pow_succ]

theorem fullLevel_getD (H : Hash) (l : List Int) :
    ∀ lev j, j < 1024 / 2 ^ lev →
      (fullLevel H l lev).getD j 0 = node H l lev j := by
  intro lev
  induction lev with
  | zero =>
    intro j hj
    simp only [pow_zero, Nat.div_one] at hj
    show (fullLevel0 l).getD j 0 = _
    rw [fullLevel0, map_range_getD _ _ _ hj]
    by_cases hlt : j < l.length
    · rw [if_pos hlt]; rfl
    · rw [if_neg hlt]
      show (0 : Int) = node H l 0 j
      rw [show node H l 0 j = l.getD j 0 from rfl,
        List.getD_eq_default _ _ (by omega)]
  | succ lev ih =>
    intro j hj
    have hm : 1024 / 2 ^ (lev + 1) = 1024 / 2 ^ lev / 2 := (div_pow_succ _ _).symm
    have hj2 : 2 * j + 1 < 1024 / 2 ^ lev := by
      rw [hm] at hj
      generalize 1024 / 2 ^ lev = n at hj ⊢
      omega
    have hj1 : 2 * j < 1024 / 2 ^ lev := by omega
    show (pairLevel H (fullLevel H l lev)).getD j 0 = _
    rw [pairLevel, fullLevel_length,
      Nat.shiftRight_eq_div_pow, pow_one, div_pow_succ,
      map_range_getD _ _ _ hj, ih _ hj1, ih _ hj2]
    rfl

theorem buildFull_eq_node (H : Hash) (l : List Int) :
    buildFullMerkleTreeRoot H l = node H l 10 0 := by
  rw [buildFullMerkleTreeRoot]
  have h0 : (fullLevel H l 9).getD 0 0 = node H l 9 0 :=
    fullLevel_getD H l 9 0 (by norm_num)
  have h1 : (fullLevel H l 9).getD 1 0 = node H l 9 1 :=
    fullLevel_getD H l 9 1 (by norm_num)
  simp only [h0, h1]
  rfl

theorem recombine_eq_node (H : Hash) (l : List Int) (t : Nat)
    (ht : t < 1024) (path indices : List Int)
    (hpath : ∀ i, i < 10 → path.getD i 0 = node H l i ((t >>> i) ^^^ 1))
    (hind : ∀ i, i < 10 → indices.getD i 0 = (((t >>> i) % 2 : Nat) : Int)) :
    computeMerkleRootFromPath H (l.getD t 0) path indices = node H l 10 0 := by
  have key : ∀ n, n ≤ 10 →
      (List.range n).foldl
        (fun current i =>
          let pathVal := path.getD i 0
          let idx := indices.getD i 0
          if idx = 0 then H current pathVal else H pathVal current)
        (l.getD t 0) = node H l n (t / 2 ^ n) := by
    intro n
    induction n with
    | zero =>
      intro _
      simp only [List.range_zero, List.foldl_nil, pow_zero, Nat.div_one]
      rfl
    | succ n ih =>
      intro hn
      rw [List.range_succ, List.foldl_append, ih (by omega)]
      simp only [List.foldl_cons, List.foldl_nil]
      rw [hind n (by omega), hpath n (by omega), Nat.shiftRight_eq_div_pow]
      have hq : t / 2 ^ n / 2 = t / 2 ^ (n + 1) := div_pow_succ _ _
      by_cases hev : t / 2 ^ n % 2 = 0
      · rw [if_pos (by rw [hev]; rfl)]
        rw [xor_one_of_even _ hev]
        have hd2 : t / 2 ^ n = 2 * (t / 2 ^ (n + 1)) := by
          rw [← hq]
          generalize t / 2 ^ n = a at hev ⊢
          omega
        show H (node H l n (t / 2 ^ n)) (node H l n (t / 2 ^ n + 1)) = _
        rw [show node H l (n + 1) (t / 2 ^ (n + 1)) =
          H (node H l n (2 * (t / 2 ^ (n + 1))))
            (node H l n (2 * (t / 2 ^ (n + 1)) + 1)) from rfl]
        rw [← hd2]
      · have hodd : t / 2 ^ n % 2 = 1 := by
          generalize t / 2 ^ n = a at hev ⊢
          omega
        rw [if_neg (by
          rw [hodd]
          norm_num)]
        rw [xor_one_of_odd _ hodd]
        have hd2 : t / 2 ^ n = 2 * (t / 2 ^ (n + 1)) + 1 := by
          rw [← hq]
          generalize t / 2 ^ n = a at hodd ⊢
          omega
        show H (node H l n (t / 2 ^ n - 1)) (node H l n (t / 2 ^ n)) = _
        rw [show node H l (n + 1) (t / 2 ^ (n + 1)) =
          H (node H l n (2 * (t / 2 ^ (n + 1))))
            (node H l n (2 * (t / 2 ^ (n + 1)) + 1)) from rfl]
        rw [show 2 * (t / 2 ^ (n + 1)) + 1 = t / 2 ^ n from hd2.symm]
        rw [show 2 * (t / 2 ^ (n + 1)) = t / 2 ^ n - 1 from by omega]
      
  rw [computeMerkleRootFromPath, key 10 (le_refl 10),
    Nat.div_eq_of_lt (by omega : t < 2 ^ 10)]

end Relayer

namespace Relayer

/-! ### The ledger algorithm as the spec words it (for claim C1)

Spec §4.1: "maintain, per level `0..depth-1`, a 'filled subtree' slot … and
a precomputed per-level zero constant (`zero[0]=0`; `zero[i] =
H(zero[i-1], zero[i-1])`).  On inserting leaf at position `p`: walk levels
bottom-up; if `p` is even at that level, store current hash as the level's
filled subtree and combine with `zero[level]`; if odd, combine the stored
filled subtree with current hash; promote `p ← p/2`.  The final hash after
`depth` levels is the new root." -/

/-- One ledger insertion at position `p`, written from the spec's words
(the refinement comparison definition for C1).  Walking a level with an
odd position and no stored filled subtree is undefined behaviour, embedded
as an error. -/
def specInsert (H : Hash) : Nat → Nat → Int → Nat → (Nat → Option Int) →
    Except String (Int × (Nat → Option Int))
  | 0, _, cur, _, slot => .ok (cur, slot)
  | n + 1, level, cur, p, slot =>
    if p % 2 = 0 then
      specInsert H n (level + 1) (H cur (zeros H level)) (p / 2)
        (fun j => if j = level then some cur else slot j)
    else
      match slot level with
      | none => .error "no filled subtree stored"
      | some v => specInsert H n (level + 1) (H v cur) (p / 2) slot

/-- Replaying every insertion in order, per the spec's
"Rebuild-from-ledger" paragraph; positions are assigned `0, 1, 2, …`. -/
def specReplayLoop (H : Hash) :
    Nat → Int → (Nat → Option Int) → List Int → Except String Int
  | _, root, _, [] => .ok root
  | p, _, slot, c :: cs =>
    match specInsert H 10 0 c p slot with
    | .error e => .error e
    | .ok (r, slot') => specReplayLoop H (p + 1) r slot' cs

/-- The spec's ledger replay of a full ordered commitment list.  The spec
does not state the empty-tree root; it is taken as the level-9 zero
constant, the value the N = 0 equivalence of §8 is claimed against. -/
def specLedgerReplay (H : Hash) (commitments : List Int) :
    Except String Int :=
  specReplayLoop H 0 (zeros H 9) (fun _ => none) commitments

theorem specInsert_of_insertLevels (H : Hash) (idx : Nat) :
    ∀ (n i : Nat),
    ∀ (cur : Int) (cidx : Nat) (fs : List (Option Int))
      (nv : Nat → Nat → Option Int) (slot : Nat → Option Int)
      (r : Int) (fs' : List (Option Int)) (nv' : Nat → Nat → Option Int),
      fs.length = 10 →
      (∀ j, j < 10 → fs.getD j none = slot j) →
      i + n ≤ 10 →
      insertLevels H idx n i cur cidx fs nv = .ok (r, fs', nv') →
      ∃ slot', specInsert H n i cur cidx slot = .ok (r, slot') ∧
        fs'.length = 10 ∧ (∀ j, j < 10 → fs'.getD j none = slot' j) := by
  intro n
  induction n with
  | zero =>
    intro i cur cidx fs nv slot r fs' nv' hfsl hrel _ heq
    have heq2 : Except.ok (cur, fs, nv) =
        (Except.ok (r, fs', nv') :
          Except String (Int × List (Option Int) × (Nat → Nat → Option Int))) :=
      heq
    obtain ⟨h1, h2, h3⟩ : cur = r ∧ fs = fs' ∧ nv = nv' := by
      cases heq2
      exact ⟨rfl, rfl, rfl⟩
    subst h1; subst h2; subst h3
    exact ⟨slot, rfl, hfsl, hrel⟩
  | succ n ih =>
    intro i cur cidx fs nv slot r fs' nv' hfsl hrel hlt heq
    have h10 : i < 10 := by omega
    rw [insertLevels] at heq
    rw [specInsert]
    by_cases hpar : cidx % 2 = 0
    · rw [if_pos hpar] at heq
      simp only [zerosList_getD H i h10] at heq
      rw [if_pos hpar]
      exact ih (i + 1) _ _ _ _ _ _ _ _
        (by rw [List.length_set]; exact hfsl)
        (by
          intro j hj
          by_cases hji : j = i
          · subst hji
            rw [getD_set_self _ _ _ (by omega), if_pos rfl]
          · rw [getD_set_ne _ _ _ _ (fun hcon => hji hcon.symm),
              if_neg hji, hrel j hj])
        (by omega)
        heq
    · rw [if_neg hpar] at heq
      rw [if_neg hpar, ← hrel i h10]
      cases hslot : fs.getD i none with
      | none =>
        rw [hslot] at heq
        exact absurd heq (by simp)
      | some v =>
        rw [hslot] at heq
        have heq' : insertLevels H idx n (i + 1) (H v cur) (cidx / 2) fs
            (setNode nv (i + 1) (idx >>> (i + 1)) (H v cur)) =
            .ok (r, fs', nv') := heq
        exact ih (i + 1) _ _ _ _ _ _ _ _ hfsl hrel (by omega) heq'

theorem specReplayLoop_of_rebuildLoop (H : Hash) (cs : List Int) :
    ∀ (p : Nat) (st : IncTree) (slot : Nat → Option Int) (st' : IncTree),
      st.filledSubtrees.length = 10 →
      (∀ j, j < 10 → st.filledSubtrees.getD j none = slot j) →
      rebuildLoop H p st cs = .ok st' →
      specReplayLoop H p st.root slot cs = .ok st'.root := by
  induction cs with
  | nil =>
    intro p st slot st' _ _ heq
    cases heq
    rfl
  | cons c cs ih =>
    intro p st slot st' hfsl hrel heq
    rw [rebuildLoop] at heq
    cases hins : insertLeaf H st.filledSubtrees st.nodeValues p c with
    | error e =>
      rw [hins] at heq
      exact absurd heq (fun hcon => by
        have hbad : (Except.error e : Except String IncTree) = Except.ok st' :=
          hcon
        cases hbad)
    | ok v =>
      obtain ⟨r, fs, nv⟩ := v
      rw [hins] at heq
      obtain ⟨slot', hspec, hl', hrel'⟩ :=
        specInsert_of_insertLevels H p 10 0 c p
          st.filledSubtrees (setNode st.nodeValues 0 p c) slot r fs nv
          hfsl hrel (by omega) hins
      rw [specReplayLoop, hspec]
      exact ih (p + 1) ⟨r, fs, nv⟩ slot' st' hl' hrel' heq

end Relayer

namespace Relayer

/-- A concrete stand-in compression function used to instantiate the
`mimc7` parameter in witnesses and counterexamples (the real MiMC7 round
function is not among the sources). -/
def testHash : Hash := fun a b => a + 2 * b + 1

section

set_option maxRecDepth 100000

/-- C1 (amended): for every commitment sequence of length at most 1024 —
in particular N = 0, 1, 2, 1024 — `rebuildIncrementalTree` succeeds and its
root equals the root of the ledger's per-level filled-subtree replay as the
spec describes it (`specLedgerReplay`); and the rebuild has no overflow
check: a 1025-commitment replay also succeeds rather than failing. -/
theorem claim_C1 :
    (∀ (H : Hash) (l : List Int), l.length ≤ 1024 →
      ∃ st, rebuildIncrementalTree H l = .ok st ∧
        specLedgerReplay H l = .ok st.root) ∧
    (rebuildIncrementalTree testHash (List.replicate 1025 0)).isOk = true := by
  constructor
  · intro H l hl
    obtain ⟨st, hst, _, ⟨hfsl, _⟩, _⟩ := rebuild_spec H l hl
    refine ⟨st, hst, ?_⟩
    exact specReplayLoop_of_rebuildLoop H l 0
      ⟨zeros H 9, List.replicate 10 none, fun _ _ => none⟩
      (fun _ => none) st (by simp)
      (by intro j hj; interval_cases j <;> rfl) hst
  · decide

/-- C1 counterexample to the claim as stated: inserting a 1025th
commitment does not fail — the incremental replay of 1025 commitments
succeeds (silently wrapping) instead of raising an overflow error. -/
theorem claim_C1_counterexample :
    (rebuildIncrementalTree testHash (List.replicate 1025 0)).isOk = true := by
  decide

end

/-- C1 witness: the equivalence branch applied at a concrete two-element
sequence. -/
theorem claim_C1_witness :
    ∃ st, rebuildIncrementalTree testHash [5, 6] = .ok st ∧
      specLedgerReplay testHash [5, 6] = .ok st.root :=
  claim_C1.1 testHash [5, 6] (by decide)

/-- C2: for every leaf index `t` inside the inserted range of a tree with
at most 1024 commitments, `buildMerklePath` succeeds and recombining the
returned `(leaf, path, indices)` through the per-level rule of
`computeMerkleRootFromPath` (current value left when the index bit is 0,
right when it is 1) reproduces the returned current root exactly. -/
theorem claim_C2 (H : Hash) (l : List Int) (t : Nat)
    (ht : t < l.length) (hl : l.length ≤ 1024) :
    ∃ path indices root,
      buildMerklePath H l t = .ok (path, indices, root) ∧
      computeMerkleRootFromPath H (l.getD t 0) path indices = root := by
  obtain ⟨st, hst, hroot, _, hnv⟩ := rebuild_spec H l hl
  have hne : l ≠ [] := by
    intro hcon
    rw [hcon] at ht
    simp at ht
  rw [if_neg hne] at hroot
  refine ⟨(List.range 10).map fun i =>
      match st.nodeValues i ((t >>> i) ^^^ 1) with
      | some v => v
      | none => (zerosList H).getD i 0,
    (List.range 10).map fun i => (((t >>> i) % 2 : Nat) : Int),
    st.root, ?_, ?_⟩
  · rw [buildMerklePath, if_neg (by omega), hst]
    rfl
  · have hpath : ∀ i, i < 10 →
        ((List.range 10).map fun i =>
          match st.nodeValues i ((t >>> i) ^^^ 1) with
          | some v => v
          | none => (zerosList H).getD i 0).getD i 0 =
        node H l i ((t >>> i) ^^^ 1) := by
      intro i hi
      rw [map_range_getD _ _ _ hi, hnv i ((t >>> i) ^^^ 1)]
      by_cases hc : ((t >>> i) ^^^ 1) * 2 ^ i < l.length
      · rw [if_pos ⟨by omega, hc⟩]
      · rw [if_neg (by
          intro hcon
          exact hc hcon.2)]
        rw [zerosList_getD H i hi,
          node_of_length_le H l i _ (by omega)]
    have hind : ∀ i, i < 10 →
        ((List.range 10).map fun i =>
          (((t >>> i) % 2 : Nat) : Int)).getD i 0 =
        (((t >>> i) % 2 : Nat) : Int) := by
      intro i hi
      rw [map_range_getD _ _ _ hi]
    rw [hroot]
    exact recombine_eq_node H l t (by omega) _ _ hpath hind

/-- C2 witness: position 1 of a three-commitment tree. -/
theorem claim_C2_witness :
    ∃ path indices root,
      buildMerklePath testHash [5, 6, 7] 1 = .ok (path, indices, root) ∧
      computeMerkleRootFromPath testHash
        (([5, 6, 7] : List Int).getD 1 0) path indices = root :=
  claim_C2 testHash [5, 6, 7] 1 (by decide) (by decide)

/-- C9: for every non-empty list of at most 1024 commitments the
incremental replay root equals the naive zero-padded full-tree rebuild
root; on the empty list the incremental replay returns the level-9 zero
constant while the full rebuild returns `H(zero₉, zero₉)` — one hash
application more — so whenever `H(zero₉, zero₉) ≠ zero₉` the two roots
differ. -/
theorem claim_C9 (H : Hash) :
    (∀ l : List Int, l ≠ [] → l.length ≤ 1024 →
      ∃ st, rebuildIncrementalTree H l = .ok st ∧
        st.root = buildFullMerkleTreeRoot H l) ∧
    ((rebuildIncrementalTree H []).map IncTree.root = .ok (zeros H 9)) ∧
    (buildFullMerkleTreeRoot H [] = H (zeros H 9) (zeros H 9)) ∧
    (H (zeros H 9) (zeros H 9) ≠ zeros H 9 →
      ∀ st, rebuildIncrementalTree H [] = .ok st →
        st.root ≠ buildFullMerkleTreeRoot H []) := by
  refine ⟨?_, rfl, ?_, ?_⟩
  · intro l hne hl
    obtain ⟨st, hst, hroot, _, _⟩ := rebuild_spec H l hl
    rw [if_neg hne] at hroot
    exact ⟨st, hst, by rw [hroot, buildFull_eq_node]⟩
  · rw [buildFull_eq_node]
    rw [show node H [] 10 0 = zeros H 10 from node_nil H 10 0]
    rfl
  · intro hne st hst
    have hst2 : (Except.ok (⟨zeros H 9, List.replicate 10 none,
        fun _ _ => none⟩ : IncTree) : Except String IncTree) =
        .ok st := hst
    have hr : st.root = zeros H 9 := by
      cases hst2
      rfl
    rw [hr, buildFull_eq_node,
      show node H [] 10 0 = zeros H 10 from node_nil H 10 0]
    exact fun hcon => hne hcon.symm

/-- C9 witness: the nonempty branch at a concrete two-element list, and
the empty-list divergence for the concrete test hash. -/
theorem claim_C9_witness :
    (∃ st, rebuildIncrementalTree testHash [5, 6] = .ok st ∧
      st.root = buildFullMerkleTreeRoot testHash [5, 6]) ∧
    (∀ st, rebuildIncrementalTree testHash [] = .ok st →
      st.root ≠ buildFullMerkleTreeRoot testHash []) :=
  ⟨(claim_C9 testHash).1 [5, 6] (by decide) (by decide),
   (claim_C9 testHash).2.2.2 (by decide)⟩

end Relayer

namespace Relayer

/-! ### Validator consensus (`validatorNetwork.js` and the coordinator)

`BigInt` voting powers are `u256` stake balances; they are embedded as
`Nat`.  A validator response that fails all retries is `none`
(`requestValidation` returns `null`); `verifyProof` keeps only fulfilled,
non-null responses. -/

/-- One direct validator's response (`{valid, validator, votingPower,
signature, timestamp}`). -/
structure StdValidation where
  valid : Bool
  validator : String
  votingPower : Nat
  signature : String
  timestamp : Nat
deriving DecidableEq

/-- One signature entry as returned upward (`{validator, votingPower,
signature, timestamp}`); also the coordinator's per-staker signature
record.  A missing JS `signature` field is the empty string. -/
structure SigEntry where
  validator : String
  votingPower : Nat
  signature : String
  timestamp : Nat
deriving DecidableEq

/-- The coordinator's pre-aggregated response (`aggregated: true`). -/
structure AggValidation where
  valid : Bool
  signatures : List SigEntry
  totalVotingPower : Nat
  validVotingPower : Nat
  stakerCount : Nat
deriving DecidableEq

/-- A response received by `ValidatorNetwork.verifyProof`. -/
inductive VResponse
  | std (v : StdValidation)
  | agg (a : AggValidation)
deriving DecidableEq

/-- `v.aggregated` truthiness test. -/
def VResponse.isAggregated : VResponse → Bool
  | .std _ => false
  | .agg _ => true

/-- The `ConsensusResult` record `verifyProof` returns. -/
structure ConsensusResult where
  valid : Bool
  signatures : List SigEntry
  totalVotingPower : Nat
  validVotingPower : Nat
  reason : Option String
deriving DecidableEq

/-- The constructor default (and the value `index.js` passes:
`new ValidatorNetwork(VALIDATOR_URLS, 6600)`). -/
def defaultThresholdBps : Nat := 6600

/-- The standard (non-aggregated) responses among the validations. -/
def stdValidations (vs : List VResponse) : List StdValidation :=
  vs.filterMap fun v =>
    match v with
    | .std s => some s
    | .agg _ => none

/-- `totalVotingPower` accumulated by the standard tally loop. -/
def totalVotingPower (vs : List VResponse) : Nat :=
  ((stdValidations vs).map StdValidation.votingPower).sum

/-- `validVotingPower` accumulated by the standard tally loop. -/
def validVotingPower (vs : List VResponse) : Nat :=
  (((stdValidations vs).filter StdValidation.valid).map
    StdValidation.votingPower).sum

/-- `ValidatorNetwork.verifyProof`, applied to the fulfilled non-null
validations.  A coordinator response flagged `aggregated` is special-cased
first; otherwise voting power is tallied per validator, with `NO_QUORUM`
when no voting power responded, and only the valid attestations are
returned on success.  (When `find?` is `none` every element is standard,
so tallying over `stdValidations` is the JS loop exactly.) -/
def verifyProof (thresholdBps : Nat) (validations : List VResponse) :
    ConsensusResult :=
  match validations.find? VResponse.isAggregated with
  | some (.agg a) =>
    if 0 < a.totalVotingPower ∧
        a.validVotingPower * 10000 ≥ a.totalVotingPower * thresholdBps then
      { valid := true
        signatures := a.signatures.filter fun s => s.signature ≠ ""
        totalVotingPower := a.totalVotingPower
        validVotingPower := a.validVotingPower
        reason := none }
    else
      { valid := false
        signatures := []
        totalVotingPower := a.totalVotingPower
        validVotingPower := a.validVotingPower
        reason := some "Threshold not met" }
  | _ =>
    let total := totalVotingPower validations
    let validP := validVotingPower validations
    if total = 0 then
      { valid := false
        signatures := []
        totalVotingPower := 0
        validVotingPower := 0
        reason := some "No validator voting power" }
    else if validP * 10000 ≥ total * thresholdBps then
      { valid := true
        signatures := ((stdValidations validations).filter
          StdValidation.valid).map fun v =>
            ⟨v.validator, v.votingPower, v.signature, v.timestamp⟩
        totalVotingPower := total
        validVotingPower := validP
        reason := none }
    else
      { valid := false
        signatures := []
        totalVotingPower := total
        validVotingPower := validP
        reason := some "Threshold not met" }

/-- `Promise.allSettled` outcome filtering: only fulfilled, non-null
responses survive (`r.status === 'fulfilled' && r.value`). -/
def collectValidations (results : List (Option VResponse)) :
    List VResponse :=
  results.filterMap id

/-- `verifyProof` over the raw per-validator outcomes. -/
def verifyProofFromResults (thresholdBps : Nat)
    (results : List (Option VResponse)) : ConsensusResult :=
  verifyProof thresholdBps (collectValidations results)

end Relayer

namespace Relayer

/-! ### The coordinator tally (`POST /verify`) -/

/-- A staker's reply to the coordinator's push `verify` message
(`{requestId, valid, signature, timestamp}`); `none` stands for a rejected
(timed-out) promise. -/
structure StakerReply where
  valid : Bool
  signature : String
  timestamp : Nat
deriving DecidableEq

/-- The coordinator's aggregated HTTP response body. -/
structure CoordResponse where
  aggregated : Bool
  valid : Bool
  signatures : List SigEntry
  totalVotingPower : Nat
  validVotingPower : Nat
  stakerCount : Nat
deriving DecidableEq

/-- The coordinator's hard-coded threshold (`THRESHOLD_BPS = 6600`). -/
def THRESHOLD_BPS : Nat := 6600

/-- One step of the coordinator's tally loop: the staker's current
registry power is added to the total unconditionally
(`totalVotingPower += power;` runs before the fulfilled check); only a
fulfilled reply with `valid` adds to the valid power and pushes a
signature. -/
def coordStep (registry : String → Option Nat)
    (acc : List SigEntry × Nat × Nat) (e : String × Option StakerReply) :
    List SigEntry × Nat × Nat :=
  let power := (registry e.1).getD 0
  let total := acc.2.1 + power
  match e.2 with
  | some r =>
    if r.valid then
      (acc.1 ++ [⟨e.1, power, r.signature, r.timestamp⟩], total,
        acc.2.2 + power)
    else (acc.1, total, acc.2.2)
  | none => (acc.1, total, acc.2.2)

/-- The coordinator's `POST /verify` tally over the connected stakers (in
registration order) and their settled outcomes, reading each voting power
from the current registry (`stakers.get(addr)?.votingPower ?? 0n`). -/
def coordinatorVerify (registry : String → Option Nat)
    (entries : List (String × Option StakerReply)) : CoordResponse :=
  let st := entries.foldl (coordStep registry) ([], 0, 0)
  let thresholdMet :=
    0 < st.2.1 ∧ st.2.2 * 10000 ≥ st.2.1 * THRESHOLD_BPS
  { aggregated := true
    valid := decide thresholdMet
    signatures := st.1
    totalVotingPower := st.2.1
    validVotingPower := st.2.2
    stakerCount := entries.length }

/-- How one coordinator entry contributes to the valid tally. -/
def coordVotes (e : String × Option StakerReply) : Bool :=
  match e.2 with
  | some r => r.valid
  | none => false

theorem coordFold_spec (registry : String → Option Nat)
    (entries : List (String × Option StakerReply)) :
    ∀ (sigs : List SigEntry) (total validP : Nat),
      (entries.foldl (coordStep registry) (sigs, total, validP)).2.1 =
        total + (entries.map fun e => (registry e.1).getD 0).sum ∧
      (entries.foldl (coordStep registry) (sigs, total, validP)).2.2 =
        validP + ((entries.filter coordVotes).map
          fun e => (registry e.1).getD 0).sum := by
  induction entries with
  | nil => intro sigs total validP; simp
  | cons e es ih =>
    intro sigs total validP
    simp only [List.foldl_cons, List.map_cons, List.sum_cons]
    cases he : e.2 with
    | none =>
      have hv : coordVotes e = false := by rw [coordVotes, he]
      rw [show coordStep registry (sigs, total, validP) e =
        (sigs, total + (registry e.1).getD 0, validP) from by
          rw [coordStep, he]]
      rw [List.filter_cons_of_neg (by simp [hv])]
      obtain ⟨h1, h2⟩ := ih sigs (total + (registry e.1).getD 0) validP
      constructor
      · rw [h1]; omega
      · rw [h2]
    | some r =>
      by_cases hval : r.valid
      · have hv : coordVotes e = true := by
          rw [coordVotes, he]
          exact hval
        rw [show coordStep registry (sigs, total, validP) e =
          (sigs ++ [⟨e.1, (registry e.1).getD 0, r.signature, r.timestamp⟩],
            total + (registry e.1).getD 0,
            validP + (registry e.1).getD 0) from by
            rw [coordStep, he]
            dsimp only
            rw [if_pos hval]]
        rw [List.filter_cons_of_pos (by simp [hv])]
        obtain ⟨h1, h2⟩ := ih _
          (total + (registry e.1).getD 0) (validP + (registry e.1).getD 0)
        constructor
        · rw [h1]; omega
        · rw [h2]
          simp only [List.map_cons, List.sum_cons]
          omega
      · have hv : coordVotes e = false := by
          rw [coordVotes, he]
          simp only [Bool.not_eq_true] at hval
          exact hval
        rw [show coordStep registry (sigs, total, validP) e =
          (sigs, total + (registry e.1).getD 0, validP) from by
            rw [coordStep, he]
            dsimp only
            rw [if_neg hval]]
        rw [List.filter_cons_of_neg (by simp [hv])]
        obtain ⟨h1, h2⟩ := ih sigs (total + (registry e.1).getD 0) validP
        constructor
        · rw [h1]; omega
        · rw [h2]

end Relayer

namespace Relayer

/-- Spec §8 scenario: powers 100, 100, 200; the 100- and 200-power
validators vote valid (300 valid). -/
def scenarioAccept : List VResponse :=
  [.std ⟨true, "v1", 100, "s1", 1⟩,
   .std ⟨false, "v2", 100, "s2", 1⟩,
   .std ⟨true, "v3", 200, "s3", 1⟩]

/-- The flipped scenario: only one 100-power validator votes valid. -/
def scenarioReject : List VResponse :=
  [.std ⟨true, "v1", 100, "s1", 1⟩,
   .std ⟨false, "v2", 100, "s2", 1⟩,
   .std ⟨false, "v3", 200, "s3", 1⟩]

/-- C3: the consensus decision of `verifyProof`: in direct mode acceptance
holds iff `validVotingPower * 10000 ≥ totalVotingPower * thresholdBps`
with non-zero responding power, and zero responding power is rejected
(no-quorum), never accepted; the aggregated coordinator response reduces
through the same formula; the default threshold is 6600; and the concrete
100/100/200 scenarios accept with 2 signatures resp. reject. -/
theorem claim_C3 :
    defaultThresholdBps = 6600 ∧
    (∀ (bps : Nat) (vs : List VResponse),
      vs.find? VResponse.isAggregated = none →
      ((verifyProof bps vs).valid = true ↔
        0 < totalVotingPower vs ∧
        validVotingPower vs * 10000 ≥ totalVotingPower vs * bps)) ∧
    (∀ (bps : Nat) (a : AggValidation),
      ((verifyProof bps [VResponse.agg a]).valid = true ↔
        0 < a.totalVotingPower ∧
        a.validVotingPower * 10000 ≥ a.totalVotingPower * bps)) ∧
    ((verifyProof 6600 scenarioAccept).valid = true ∧
      (verifyProof 6600 scenarioAccept).signatures.length = 2) ∧
    ((verifyProof 6600 scenarioReject).valid = false) ∧
    (verifyProof 6600 [] =
      ⟨false, [], 0, 0, some "No validator voting power"⟩) := by
  refine ⟨rfl, ?_, ?_, by decide, by decide, by decide⟩
  · intro bps vs h
    rw [verifyProof, h]
    dsimp only
    by_cases ht : totalVotingPower vs = 0
    · rw [if_pos ht]
      simp [ht]
    · rw [if_neg ht]
      by_cases hge : validVotingPower vs * 10000 ≥ totalVotingPower vs * bps
      · rw [if_pos hge]
        exact ⟨fun _ => ⟨Nat.pos_of_ne_zero ht, hge⟩, fun _ => rfl⟩
      · rw [if_neg hge]
        refine ⟨fun hcon => absurd hcon (by simp), fun hcon => ?_⟩
        exact absurd hcon.2 hge
  · intro bps a
    have hf : ([VResponse.agg a]).find? VResponse.isAggregated =
        some (.agg a) := rfl
    rw [verifyProof, hf]
    dsimp only
    by_cases hc : 0 < a.totalVotingPower ∧
        a.validVotingPower * 10000 ≥ a.totalVotingPower * bps
    · rw [if_pos hc]
      simp [hc]
    · rw [if_neg hc]
      simp [hc]

/-- C3 witness: the aggregation rule applied at the concrete accepting
scenario. -/
theorem claim_C3_witness :
    (verifyProof 6600 scenarioAccept).valid = true ↔
      0 < totalVotingPower scenarioAccept ∧
      validVotingPower scenarioAccept * 10000 ≥
        totalVotingPower scenarioAccept * 6600 :=
  claim_C3.2.1 6600 scenarioAccept (by decide)

/-- C4 (amended): in direct validator mode a non-responding validator is
dropped before tallying, so it contributes to neither total nor valid
voting power; but in coordinator mode every connected staker's registry
power is added to `totalVotingPower` whether or not it responded — a
non-responder is counted like an invalid vote, contributing zero only to
`validVotingPower` (a staker deregistered before tallying has registry
power 0 and so contributes nothing). -/
theorem claim_C4 :
    (∀ (bps : Nat) (rs₁ rs₂ : List (Option VResponse)),
      verifyProofFromResults bps (rs₁ ++ none :: rs₂) =
        verifyProofFromResults bps (rs₁ ++ rs₂)) ∧
    (∀ (registry : String → Option Nat)
      (entries : List (String × Option StakerReply)),
      (coordinatorVerify registry entries).totalVotingPower =
        (entries.map fun e => (registry e.1).getD 0).sum ∧
      (coordinatorVerify registry entries).validVotingPower =
        ((entries.filter coordVotes).map
          fun e => (registry e.1).getD 0).sum) := by
  constructor
  · intro bps rs₁ rs₂
    rw [verifyProofFromResults, verifyProofFromResults,
      collectValidations, collectValidations]
    simp
  · intro registry entries
    obtain ⟨h1, h2⟩ := coordFold_spec registry entries [] 0 0
    constructor
    · show (entries.foldl (coordStep registry) ([], 0, 0)).2.1 = _
      rw [h1]
      omega
    · show (entries.foldl (coordStep registry) ([], 0, 0)).2.2 = _
      rw [h2]
      omega

/-- C4 counterexample to the claim as stated: in the coordinator tally a
staker that stays registered with power 100 but never responds still
contributes 100 to `totalVotingPower` — it is not excluded from the
total. -/
theorem claim_C4_counterexample :
    (coordinatorVerify (fun _ => some 100)
      [("staker1", none)]).totalVotingPower = 100 ∧
    (coordinatorVerify (fun _ => some 100)
      [("staker1", none)]).validVotingPower = 0 ∧
    (100 : Nat) ≠ 0 := by
  refine ⟨rfl, rfl, by decide⟩

/-- C5: in direct mode, when the threshold is met the returned
`ConsensusResult` carries exactly the attestations that voted valid
(projected to `{validator, votingPower, signature, timestamp}`); when the
threshold is not met it carries an empty signature list and reason
`Threshold not met`. -/
theorem claim_C5 (bps : Nat) (vs : List VResponse)
    (hagg : vs.find? VResponse.isAggregated = none) :
    (0 < totalVotingPower vs →
      validVotingPower vs * 10000 ≥ totalVotingPower vs * bps →
      verifyProof bps vs =
        ⟨true, ((stdValidations vs).filter StdValidation.valid).map
          (fun v => ⟨v.validator, v.votingPower, v.signature, v.timestamp⟩),
          totalVotingPower vs, validVotingPower vs, none⟩) ∧
    (validVotingPower vs * 10000 < totalVotingPower vs * bps →
      verifyProof bps vs =
        ⟨false, [], totalVotingPower vs, validVotingPower vs,
          some "Threshold not met"⟩) := by
  constructor
  · intro hpos hge
    rw [verifyProof, hagg]
    dsimp only
    rw [if_neg (by omega), if_pos hge]
  · intro hlt
    have hpos : totalVotingPower vs ≠ 0 := by
      intro hcon
      rw [hcon] at hlt
      simp at hlt
    rw [verifyProof, hagg]
    dsimp only
    rw [if_neg hpos, if_neg (by omega)]

/-- C5 witness: the accepting scenario returns exactly the two valid
attestations. -/
theorem claim_C5_witness :
    verifyProof 6600 scenarioAccept =
      ⟨true, ((stdValidations scenarioAccept).filter
        StdValidation.valid).map
          (fun v => ⟨v.validator, v.votingPower, v.signature, v.timestamp⟩),
        totalVotingPower scenarioAccept, validVotingPower scenarioAccept,
        none⟩ :=
  (claim_C5 6600 scenarioAccept (by decide)).1 (by decide) (by decide)

end Relayer

namespace Relayer

/-! ### The swap proof-input builder (`generateSwapProof`)

All numeric fields are the `BigInt` values the code obtains through
`toBigInt`/`toBigIntString`; since those string round-trips preserve the
value, the model works on the values directly.  The debug-artifact write
and the `DEV_BYPASS_PROOFS` early return are configuration/IO side paths
outside the claims and are not modelled; every `console` diagnostic that
witnesses a correction or mismatch is modelled as a `LogEvent`. -/

/-- The input (spent) note of a swap transition. -/
structure InputNote where
  assetID : Int
  amount : Int
  blindingFactor : Int
  ownerPublicKey : Int
  nullifier : Int
  commitment : Int
deriving DecidableEq

/-- An output note (swap output or change). -/
structure OutputNote where
  assetID : Int
  amount : Int
  blindingFactor : Int
  commitment : Int
deriving DecidableEq

/-- The `swapData` argument of `generateSwapProof`. -/
structure SwapData where
  inputNote : InputNote
  outputNoteSwap : OutputNote
  outputNoteChange : OutputNote
  merkleRoot : Int
  merklePath : Option (List Int)
  merklePathIndices : Option (List Int)
  swapAmount : Int
  minOutputAmount : Int
  protocolFee : Int
  gasRefund : Int
deriving DecidableEq

/-- The circuit-input record (values of the decimal-string fields). -/
structure CircuitInputs where
  inputAssetID : Int
  inputAmount : Int
  inputBlindingFactor : Int
  ownerPublicKey : Int
  outputAssetIDSwap : Int
  outputAmountSwap : Int
  swapBlindingFactor : Int
  outputAssetIDChange : Int
  changeAmount : Int
  changeBlindingFactor : Int
  swapAmount : Int
  nullifier : Int
  inputCommitment : Int
  outputCommitmentSwap : Int
  outputCommitmentChange : Int
  merkleRoot : Int
  outputAmountSwapPublic : Int
  minOutputAmountSwap : Int
  protocolFee : Int
  gasRefund : Int
  merklePath : List Int
  merklePathIndices : List Int
deriving DecidableEq

/-- `formatMerklePath` (value level): first ten entries, padded with `0`
to length 10; a non-array is all zeros.  (The `"0x0"` / all-zero-word
special case maps zero-denoting entries to `"0"`, the identity on
values.) -/
def formatMerklePathVals (p : Option (List Int)) : List Int :=
  match p with
  | none => List.replicate 10 0
  | some l =>
    let f := l.take 10
    f ++ List.replicate (10 - f.length) 0

/-- `formatMerkleIndices` (value level): JS `toBigInt(v) % 2n` is the
truncated remainder, `-1`, `0` or `1`. -/
def formatMerkleIndicesVals (p : Option (List Int)) : List Int :=
  match p with
  | none => List.replicate 10 0
  | some l =>
    let f := (l.take 10).map fun v => Int.tmod v 2
    f ++ List.replicate (10 - f.length) 0

/-- `H(H(H(assetId, amount), blinding), ownerKey)`. -/
def mimcCommitment (H : Hash) (assetId amount blinding ownerKey : Int) :
    Int :=
  H (H (H assetId amount) blinding) ownerKey

/-- `H(commitment, ownerKey)`. -/
def mimcNullifier (H : Hash) (commitment ownerKey : Int) : Int :=
  H commitment ownerKey

/-- The corrections and mismatch diagnostics `generateSwapProof` logs. -/
inductive LogEvent
  | adjustAssetIDChange (oldA newA : Int)
  | recomputeNullifier (oldN newN : Int)
  | alignOutputAmountPublic (oldV newV : Int)
  | adjustChangeAmount (oldV newV : Int)
  | inputCommitmentMismatch (expected provided : Int)
  | recomputeSwapCommitment (oldC newC : Int)
  | recomputeChangeCommitment (oldC newC : Int)
  | rootMismatch (computed expected : Int)
  | rootMatch
deriving DecidableEq

/-- `outputAssetIDChange` must match `inputAssetID`; on mismatch both the
asset id and the change commitment are rewritten. -/
def swapStepAssetID (H : Hash) (ci : CircuitInputs) :
    CircuitInputs × List LogEvent :=
  if ci.outputAssetIDChange ≠ ci.inputAssetID then
    ({ ci with
        outputAssetIDChange := ci.inputAssetID
        outputCommitmentChange := mimcCommitment H ci.inputAssetID
          ci.changeAmount ci.changeBlindingFactor ci.ownerPublicKey },
      [.adjustAssetIDChange ci.outputAssetIDChange ci.inputAssetID])
  else (ci, [])

/-- The nullifier is recomputed from the (supplied) input commitment and
owner key and overwritten on mismatch. -/
def swapStepNullifier (H : Hash) (ci : CircuitInputs) :
    CircuitInputs × List LogEvent :=
  let expected := mimcNullifier H ci.inputCommitment ci.ownerPublicKey
  if expected ≠ ci.nullifier then
    ({ ci with nullifier := expected },
      [.recomputeNullifier ci.nullifier expected])
  else (ci, [])

/-- `outputAmountSwapPublic` is aligned to `outputAmountSwap`. -/
def swapStepAlignPublic (ci : CircuitInputs) :
    CircuitInputs × List LogEvent :=
  if ci.outputAmountSwapPublic ≠ ci.outputAmountSwap then
    ({ ci with outputAmountSwapPublic := ci.outputAmountSwap },
      [.alignOutputAmountPublic ci.outputAmountSwapPublic
        ci.outputAmountSwap])
  else (ci, [])

/-- Value conservation: when the supplied change amount differs from
`inputAmount − swapAmount − protocolFee − gasRefund`, the change amount is
corrected and the change commitment recomputed over the corrected
amount. -/
def swapStepConservation (H : Hash) (sd : SwapData) (ci : CircuitInputs) :
    CircuitInputs × List LogEvent :=
  let expectedChange := sd.inputNote.amount - sd.swapAmount -
    sd.protocolFee - sd.gasRefund
  if expectedChange ≠ sd.outputNoteChange.amount then
    ({ ci with
        changeAmount := expectedChange
        outputCommitmentChange := mimcCommitment H ci.outputAssetIDChange
          expectedChange ci.changeBlindingFactor ci.ownerPublicKey },
      [.adjustChangeAmount sd.outputNoteChange.amount expectedChange])
  else (ci, [])

/-- The input commitment is recomputed and compared, but a mismatch is
only logged — the supplied value is kept. -/
def swapStepInputCheck (H : Hash) (ci : CircuitInputs) :
    CircuitInputs × List LogEvent :=
  let expected := mimcCommitment H ci.inputAssetID ci.inputAmount
    ci.inputBlindingFactor ci.ownerPublicKey
  if expected ≠ ci.inputCommitment then
    (ci, [.inputCommitmentMismatch expected ci.inputCommitment])
  else (ci, [])

/-- The swap output commitment is recomputed and overwritten on
mismatch. -/
def swapStepSwapCommitment (H : Hash) (ci : CircuitInputs) :
    CircuitInputs × List LogEvent :=
  let expected := mimcCommitment H ci.outputAssetIDSwap ci.outputAmountSwap
    ci.swapBlindingFactor ci.ownerPublicKey
  if expected ≠ ci.outputCommitmentSwap then
    ({ ci with outputCommitmentSwap := expected },
      [.recomputeSwapCommitment ci.outputCommitmentSwap expected])
  else (ci, [])

/-- The change output commitment is recomputed and overwritten on
mismatch. -/
def swapStepChangeCommitment (H : Hash) (ci : CircuitInputs) :
    CircuitInputs × List LogEvent :=
  let expected := mimcCommitment H ci.outputAssetIDChange ci.changeAmount
    ci.changeBlindingFactor ci.ownerPublicKey
  if expected ≠ ci.outputCommitmentChange then
    ({ ci with outputCommitmentChange := expected },
      [.recomputeChangeCommitment ci.outputCommitmentChange expected])
  else (ci, [])

/-- The initial `circuitInputs` object assembled from `swapData`. -/
def initialCircuitInputs (sd : SwapData) : CircuitInputs where
  inputAssetID := sd.inputNote.assetID
  inputAmount := sd.inputNote.amount
  inputBlindingFactor := sd.inputNote.blindingFactor
  ownerPublicKey := sd.inputNote.ownerPublicKey
  outputAssetIDSwap := sd.outputNoteSwap.assetID
  outputAmountSwap := sd.outputNoteSwap.amount
  swapBlindingFactor := sd.outputNoteSwap.blindingFactor
  outputAssetIDChange := sd.outputNoteChange.assetID
  changeAmount := sd.outputNoteChange.amount
  changeBlindingFactor := sd.outputNoteChange.blindingFactor
  swapAmount := sd.swapAmount
  nullifier := sd.inputNote.nullifier
  inputCommitment := sd.inputNote.commitment
  outputCommitmentSwap := sd.outputNoteSwap.commitment
  outputCommitmentChange := sd.outputNoteChange.commitment
  merkleRoot := sd.merkleRoot
  outputAmountSwapPublic := sd.outputNoteSwap.amount
  minOutputAmountSwap := sd.minOutputAmount
  protocolFee := sd.protocolFee
  gasRefund := sd.gasRefund
  merklePath := formatMerklePathVals sd.merklePath
  merklePathIndices := formatMerkleIndicesVals sd.merklePathIndices

/-- The correction pipeline of `generateSwapProof`, in source order, with
the accumulated log. -/
def buildSwapCircuitInputs (H : Hash) (sd : SwapData) :
    CircuitInputs × List LogEvent :=
  let s1 := swapStepAssetID H (initialCircuitInputs sd)
  let s2 := swapStepNullifier H s1.1
  let s3 := swapStepAlignPublic s2.1
  let s4 := swapStepConservation H sd s3.1
  let s5 := swapStepInputCheck H s4.1
  let s6 := swapStepSwapCommitment H s5.1
  let s7 := swapStepChangeCommitment H s6.1
  (s7.1, s1.2 ++ s2.2 ++ s3.2 ++ s4.2 ++ s5.2 ++ s6.2 ++ s7.2)

end Relayer

namespace Relayer

theorem eta_nullifier (c : CircuitInputs) (v : Int) (h : v = c.nullifier) :
    c = { c with nullifier := v } := by
  rw [h]

theorem eta_alignPublic (c : CircuitInputs) (v : Int)
    (h : v = c.outputAmountSwapPublic) :
    c = { c with outputAmountSwapPublic := v } := by
  rw [h]

theorem eta_swapCommitment (c : CircuitInputs) (v : Int)
    (h : v = c.outputCommitmentSwap) :
    c = { c with outputCommitmentSwap := v } := by
  rw [h]

theorem eta_changeCommitment (c : CircuitInputs) (v : Int)
    (h : v = c.outputCommitmentChange) :
    c = { c with outputCommitmentChange := v } := by
  rw [h]

theorem swapStepNullifier_fst (H : Hash) (c : CircuitInputs) :
    (swapStepNullifier H c).1 =
      { c with nullifier :=
          (mimcNullifier H c.inputCommitment c.ownerPublicKey) } := by
  simp only [swapStepNullifier]
  split_ifs with h
  · rfl
  · rw [not_ne_iff] at h
    exact eta_nullifier c _ h

theorem swapStepAlignPublic_fst (c : CircuitInputs) :
    (swapStepAlignPublic c).1 =
      { c with outputAmountSwapPublic := c.outputAmountSwap } := by
  simp only [swapStepAlignPublic]
  split_ifs with h
  · rfl
  · rw [not_ne_iff] at h
    exact eta_alignPublic c _ h.symm

theorem swapStepInputCheck_fst (H : Hash) (c : CircuitInputs) :
    (swapStepInputCheck H c).1 = c := by
  simp only [swapStepInputCheck]
  split_ifs <;> rfl

theorem swapStepSwapCommitment_fst (H : Hash) (c : CircuitInputs) :
    (swapStepSwapCommitment H c).1 =
      { c with outputCommitmentSwap :=
          (mimcCommitment H c.outputAssetIDSwap c.outputAmountSwap
            c.swapBlindingFactor c.ownerPublicKey) } := by
  simp only [swapStepSwapCommitment]
  split_ifs with h
  · rfl
  · rw [not_ne_iff] at h
    exact eta_swapCommitment c _ h

theorem swapStepChangeCommitment_fst (H : Hash) (c : CircuitInputs) :
    (swapStepChangeCommitment H c).1 =
      { c with outputCommitmentChange :=
          (mimcCommitment H c.outputAssetIDChange c.changeAmount
            c.changeBlindingFactor c.ownerPublicKey) } := by
  simp only [swapStepChangeCommitment]
  split_ifs with h
  · rfl
  · rw [not_ne_iff] at h
    exact eta_changeCommitment c _ h

theorem swapStepAssetID_fst (H : Hash) (c : CircuitInputs) :
    (swapStepAssetID H c).1 =
      if c.outputAssetIDChange ≠ c.inputAssetID then
        { c with
            outputAssetIDChange := c.inputAssetID
            outputCommitmentChange :=
              (mimcCommitment H c.inputAssetID c.changeAmount
                c.changeBlindingFactor c.ownerPublicKey) }
      else c := by
  simp only [swapStepAssetID]
  split_ifs <;> rfl

theorem swapStepConservation_fst (H : Hash) (sd : SwapData)
    (c : CircuitInputs) :
    (swapStepConservation H sd c).1 =
      if sd.inputNote.amount - sd.swapAmount - sd.protocolFee -
          sd.gasRefund ≠ sd.outputNoteChange.amount then
        { c with
            changeAmount :=
              (sd.inputNote.amount - sd.swapAmount - sd.protocolFee -
                sd.gasRefund)
            outputCommitmentChange :=
              (mimcCommitment H c.outputAssetIDChange
                (sd.inputNote.amount - sd.swapAmount - sd.protocolFee -
                  sd.gasRefund) c.changeBlindingFactor c.ownerPublicKey) }
      else c := by
  simp only [swapStepConservation]
  split_ifs <;> rfl

theorem buildSwap_fst (H : Hash) (sd : SwapData) :
    (buildSwapCircuitInputs H sd).1 =
      (swapStepChangeCommitment H (swapStepSwapCommitment H
        (swapStepInputCheck H (swapStepConservation H sd
          (swapStepAlignPublic (swapStepNullifier H
            (swapStepAssetID H (initialCircuitInputs sd)).1).1).1).1).1).1).1 :=
  rfl

end Relayer

namespace Relayer

/-! Per-field projection lemmas for the builder steps, used to walk the
pipeline without materialising nested record updates. -/

theorem aID_inputAssetID (H : Hash) (c : CircuitInputs) :
    (swapStepAssetID H c).1.inputAssetID = c.inputAssetID := by
  rw [swapStepAssetID_fst]
  split_ifs <;> rfl

theorem aID_inputAmount (H : Hash) (c : CircuitInputs) :
    (swapStepAssetID H c).1.inputAmount = c.inputAmount := by
  rw [swapStepAssetID_fst]
  split_ifs <;> rfl

theorem aID_inputBlindingFactor (H : Hash) (c : CircuitInputs) :
    (swapStepAssetID H c).1.inputBlindingFactor = c.inputBlindingFactor := by
  rw [swapStepAssetID_fst]
  split_ifs <;> rfl

theorem aID_ownerPublicKey (H : Hash) (c : CircuitInputs) :
    (swapStepAssetID H c).1.ownerPublicKey = c.ownerPublicKey := by
  rw [swapStepAssetID_fst]
  split_ifs <;> rfl

theorem aID_outputAssetIDSwap (H : Hash) (c : CircuitInputs) :
    (swapStepAssetID H c).1.outputAssetIDSwap = c.outputAssetIDSwap := by
  rw [swapStepAssetID_fst]
  split_ifs <;> rfl

theorem aID_outputAmountSwap (H : Hash) (c : CircuitInputs) :
    (swapStepAssetID H c).1.outputAmountSwap = c.outputAmountSwap := by
  rw [swapStepAssetID_fst]
  split_ifs <;> rfl

theorem aID_swapBlindingFactor (H : Hash) (c : CircuitInputs) :
    (swapStepAssetID H c).1.swapBlindingFactor = c.swapBlindingFactor := by
  rw [swapStepAssetID_fst]
  split_ifs <;> rfl

theorem aID_changeAmount (H : Hash) (c : CircuitInputs) :
    (swapStepAssetID H c).1.changeAmount = c.changeAmount := by
  rw [swapStepAssetID_fst]
  split_ifs <;> rfl

theorem aID_changeBlindingFactor (H : Hash) (c : CircuitInputs) :
    (swapStepAssetID H c).1.changeBlindingFactor = c.changeBlindingFactor := by
  rw [swapStepAssetID_fst]
  split_ifs <;> rfl

theorem aID_swapAmount (H : Hash) (c : CircuitInputs) :
    (swapStepAssetID H c).1.swapAmount = c.swapAmount := by
  rw [swapStepAssetID_fst]
  split_ifs <;> rfl

theorem aID_nullifier (H : Hash) (c : CircuitInputs) :
    (swapStepAssetID H c).1.nullifier = c.nullifier := by
  rw [swapStepAssetID_fst]
  split_ifs <;> rfl

theorem aID_inputCommitment (H : Hash) (c : CircuitInputs) :
    (swapStepAssetID H c).1.inputCommitment = c.inputCommitment := by
  rw [swapStepAssetID_fst]
  split_ifs <;> rfl

theorem aID_outputCommitmentSwap (H : Hash) (c : CircuitInputs) :
    (swapStepAssetID H c).1.outputCommitmentSwap = c.outputCommitmentSwap := by
  rw [swapStepAssetID_fst]
  split_ifs <;> rfl

theorem aID_merkleRoot (H : Hash) (c : CircuitInputs) :
    (swapStepAssetID H c).1.merkleRoot = c.merkleRoot := by
  rw [swapStepAssetID_fst]
  split_ifs <;> rfl

theorem aID_outputAmountSwapPublic (H : Hash) (c : CircuitInputs) :
    (swapStepAssetID H c).1.outputAmountSwapPublic = c.outputAmountSwapPublic := by
  rw [swapStepAssetID_fst]
  split_ifs <;> rfl

theorem aID_minOutputAmountSwap (H : Hash) (c : CircuitInputs) :
    (swapStepAssetID H c).1.minOutputAmountSwap = c.minOutputAmountSwap := by
  rw [swapStepAssetID_fst]
  split_ifs <;> rfl

theorem aID_protocolFee (H : Hash) (c : CircuitInputs) :
    (swapStepAssetID H c).1.protocolFee = c.protocolFee := by
  rw [swapStepAssetID_fst]
  split_ifs <;> rfl

theorem aID_gasRefund (H : Hash) (c : CircuitInputs) :
    (swapStepAssetID H c).1.gasRefund = c.gasRefund := by
  rw [swapStepAssetID_fst]
  split_ifs <;> rfl

theorem aID_merklePath (H : Hash) (c : CircuitInputs) :
    (swapStepAssetID H c).1.merklePath = c.merklePath := by
  rw [swapStepAssetID_fst]
  split_ifs <;> rfl

theorem aID_merklePathIndices (H : Hash) (c : CircuitInputs) :
    (swapStepAssetID H c).1.merklePathIndices = c.merklePathIndices := by
  rw [swapStepAssetID_fst]
  split_ifs <;> rfl

theorem nul_inputAssetID (H : Hash) (c : CircuitInputs) :
    (swapStepNullifier H c).1.inputAssetID = c.inputAssetID := by
  rw [swapStepNullifier_fst]

theorem nul_inputAmount (H : Hash) (c : CircuitInputs) :
    (swapStepNullifier H c).1.inputAmount = c.inputAmount := by
  rw [swapStepNullifier_fst]

theorem nul_inputBlindingFactor (H : Hash) (c : CircuitInputs) :
    (swapStepNullifier H c).1.inputBlindingFactor = c.inputBlindingFactor := by
  rw [swapStepNullifier_fst]

theorem nul_ownerPublicKey (H : Hash) (c : CircuitInputs) :
    (swapStepNullifier H c).1.ownerPublicKey = c.ownerPublicKey := by
  rw [swapStepNullifier_fst]

theorem nul_outputAssetIDSwap (H : Hash) (c : CircuitInputs) :
    (swapStepNullifier H c).1.outputAssetIDSwap = c.outputAssetIDSwap := by
  rw [swapStepNullifier_fst]

theorem nul_outputAmountSwap (H : Hash) (c : CircuitInputs) :
    (swapStepNullifier H c).1.outputAmountSwap = c.outputAmountSwap := by
  rw [swapStepNullifier_fst]

theorem nul_swapBlindingFactor (H : Hash) (c : CircuitInputs) :
    (swapStepNullifier H c).1.swapBlindingFactor = c.swapBlindingFactor := by
  rw [swapStepNullifier_fst]

theorem nul_outputAssetIDChange (H : Hash) (c : CircuitInputs) :
    (swapStepNullifier H c).1.outputAssetIDChange = c.outputAssetIDChange := by
  rw [swapStepNullifier_fst]

theorem nul_changeAmount (H : Hash) (c : CircuitInputs) :
    (swapStepNullifier H c).1.changeAmount = c.changeAmount := by
  rw [swapStepNullifier_fst]

theorem nul_changeBlindingFactor (H : Hash) (c : CircuitInputs) :
    (swapStepNullifier H c).1.changeBlindingFactor = c.changeBlindingFactor := by
  rw [swapStepNullifier_fst]

theorem nul_swapAmount (H : Hash) (c : CircuitInputs) :
    (swapStepNullifier H c).1.swapAmount = c.swapAmount := by
  rw [swapStepNullifier_fst]

theorem nul_inputCommitment (H : Hash) (c : CircuitInputs) :
    (swapStepNullifier H c).1.inputCommitment = c.inputCommitment := by
  rw [swapStepNullifier_fst]

theorem nul_outputCommitmentSwap (H : Hash) (c : CircuitInputs) :
    (swapStepNullifier H c).1.outputCommitmentSwap = c.outputCommitmentSwap := by
  rw [swapStepNullifier_fst]

theorem nul_outputCommitmentChange (H : Hash) (c : CircuitInputs) :
    (swapStepNullifier H c).1.outputCommitmentChange = c.outputCommitmentChange := by
  rw [swapStepNullifier_fst]

theorem nul_merkleRoot (H : Hash) (c : CircuitInputs) :
    (swapStepNullifier H c).1.merkleRoot = c.merkleRoot := by
  rw [swapStepNullifier_fst]

theorem nul_outputAmountSwapPublic (H : Hash) (c : CircuitInputs) :
    (swapStepNullifier H c).1.outputAmountSwapPublic = c.outputAmountSwapPublic := by
  rw [swapStepNullifier_fst]

theorem nul_minOutputAmountSwap (H : Hash) (c : CircuitInputs) :
    (swapStepNullifier H c).1.minOutputAmountSwap = c.minOutputAmountSwap := by
  rw [swapStepNullifier_fst]

theorem nul_protocolFee (H : Hash) (c : CircuitInputs) :
    (swapStepNullifier H c).1.protocolFee = c.protocolFee := by
  rw [swapStepNullifier_fst]

theorem nul_gasRefund (H : Hash) (c : CircuitInputs) :
    (swapStepNullifier H c).1.gasRefund = c.gasRefund := by
  rw [swapStepNullifier_fst]

theorem nul_merklePath (H : Hash) (c : CircuitInputs) :
    (swapStepNullifier H c).1.merklePath = c.merklePath := by
  rw [swapStepNullifier_fst]

theorem nul_merklePathIndices (H : Hash) (c : CircuitInputs) :
    (swapStepNullifier H c).1.merklePathIndices = c.merklePathIndices := by
  rw [swapStepNullifier_fst]

theorem alg_inputAssetID (c : CircuitInputs) :
    (swapStepAlignPublic c).1.inputAssetID = c.inputAssetID := by
  rw [swapStepAlignPublic_fst]

theorem alg_inputAmount (c : CircuitInputs) :
    (swapStepAlignPublic c).1.inputAmount = c.inputAmount := by
  rw [swapStepAlignPublic_fst]

theorem alg_inputBlindingFactor (c : CircuitInputs) :
    (swapStepAlignPublic c).1.inputBlindingFactor = c.inputBlindingFactor := by
  rw [swapStepAlignPublic_fst]

theorem alg_ownerPublicKey (c : CircuitInputs) :
    (swapStepAlignPublic c).1.ownerPublicKey = c.ownerPublicKey := by
  rw [swapStepAlignPublic_fst]

theorem alg_outputAssetIDSwap (c : CircuitInputs) :
    (swapStepAlignPublic c).1.outputAssetIDSwap = c.outputAssetIDSwap := by
  rw [swapStepAlignPublic_fst]

theorem alg_outputAmountSwap (c : CircuitInputs) :
    (swapStepAlignPublic c).1.outputAmountSwap = c.outputAmountSwap := by
  rw [swapStepAlignPublic_fst]

theorem alg_swapBlindingFactor (c : CircuitInputs) :
    (swapStepAlignPublic c).1.swapBlindingFactor = c.swapBlindingFactor := by
  rw [swapStepAlignPublic_fst]

theorem alg_outputAssetIDChange (c : CircuitInputs) :
    (swapStepAlignPublic c).1.outputAssetIDChange = c.outputAssetIDChange := by
  rw [swapStepAlignPublic_fst]

theorem alg_changeAmount (c : CircuitInputs) :
    (swapStepAlignPublic c).1.changeAmount = c.changeAmount := by
  rw [swapStepAlignPublic_fst]

theorem alg_changeBlindingFactor (c : CircuitInputs) :
    (swapStepAlignPublic c).1.changeBlindingFactor = c.changeBlindingFactor := by
  rw [swapStepAlignPublic_fst]

theorem alg_swapAmount (c : CircuitInputs) :
    (swapStepAlignPublic c).1.swapAmount = c.swapAmount := by
  rw [swapStepAlignPublic_fst]

theorem alg_nullifier (c : CircuitInputs) :
    (swapStepAlignPublic c).1.nullifier = c.nullifier := by
  rw [swapStepAlignPublic_fst]

theorem alg_inputCommitment (c : CircuitInputs) :
    (swapStepAlignPublic c).1.inputCommitment = c.inputCommitment := by
  rw [swapStepAlignPublic_fst]

theorem alg_outputCommitmentSwap (c : CircuitInputs) :
    (swapStepAlignPublic c).1.outputCommitmentSwap = c.outputCommitmentSwap := by
  rw [swapStepAlignPublic_fst]

theorem alg_outputCommitmentChange (c : CircuitInputs) :
    (swapStepAlignPublic c).1.outputCommitmentChange = c.outputCommitmentChange := by
  rw [swapStepAlignPublic_fst]

theorem alg_merkleRoot (c : CircuitInputs) :
    (swapStepAlignPublic c).1.merkleRoot = c.merkleRoot := by
  rw [swapStepAlignPublic_fst]

theorem alg_minOutputAmountSwap (c : CircuitInputs) :
    (swapStepAlignPublic c).1.minOutputAmountSwap = c.minOutputAmountSwap := by
  rw [swapStepAlignPublic_fst]

theorem alg_protocolFee (c : CircuitInputs) :
    (swapStepAlignPublic c).1.protocolFee = c.protocolFee := by
  rw [swapStepAlignPublic_fst]

theorem alg_gasRefund (c : CircuitInputs) :
    (swapStepAlignPublic c).1.gasRefund = c.gasRefund := by
  rw [swapStepAlignPublic_fst]

theorem alg_merklePath (c : CircuitInputs) :
    (swapStepAlignPublic c).1.merklePath = c.merklePath := by
  rw [swapStepAlignPublic_fst]

theorem alg_merklePathIndices (c : CircuitInputs) :
    (swapStepAlignPublic c).1.merklePathIndices = c.merklePathIndices := by
  rw [swapStepAlignPublic_fst]

theorem cons_inputAssetID (H : Hash) (sd : SwapData) (c : CircuitInputs) :
    (swapStepConservation H sd c).1.inputAssetID = c.inputAssetID := by
  rw [swapStepConservation_fst]
  split_ifs <;> rfl

theorem cons_inputAmount (H : Hash) (sd : SwapData) (c : CircuitInputs) :
    (swapStepConservation H sd c).1.inputAmount = c.inputAmount := by
  rw [swapStepConservation_fst]
  split_ifs <;> rfl

theorem cons_inputBlindingFactor (H : Hash) (sd : SwapData) (c : CircuitInputs) :
    (swapStepConservation H sd c).1.inputBlindingFactor = c.inputBlindingFactor := by
  rw [swapStepConservation_fst]
  split_ifs <;> rfl

theorem cons_ownerPublicKey (H : Hash) (sd : SwapData) (c : CircuitInputs) :
    (swapStepConservation H sd c).1.ownerPublicKey = c.ownerPublicKey := by
  rw [swapStepConservation_fst]
  split_ifs <;> rfl

theorem cons_outputAssetIDSwap (H : Hash) (sd : SwapData) (c : CircuitInputs) :
    (swapStepConservation H sd c).1.outputAssetIDSwap = c.outputAssetIDSwap := by
  rw [swapStepConservation_fst]
  split_ifs <;> rfl

theorem cons_outputAmountSwap (H : Hash) (sd : SwapData) (c : CircuitInputs) :
    (swapStepConservation H sd c).1.outputAmountSwap = c.outputAmountSwap := by
  rw [swapStepConservation_fst]
  split_ifs <;> rfl

theorem cons_swapBlindingFactor (H : Hash) (sd : SwapData) (c : CircuitInputs) :
    (swapStepConservation H sd c).1.swapBlindingFactor = c.swapBlindingFactor := by
  rw [swapStepConservation_fst]
  split_ifs <;> rfl

theorem cons_outputAssetIDChange (H : Hash) (sd : SwapData) (c : CircuitInputs) :
    (swapStepConservation H sd c).1.outputAssetIDChange = c.outputAssetIDChange := by
  rw [swapStepConservation_fst]
  split_ifs <;> rfl

theorem cons_changeBlindingFactor (H : Hash) (sd : SwapData) (c : CircuitInputs) :
    (swapStepConservation H sd c).1.changeBlindingFactor = c.changeBlindingFactor := by
  rw [swapStepConservation_fst]
  split_ifs <;> rfl

theorem cons_swapAmount (H : Hash) (sd : SwapData) (c : CircuitInputs) :
    (swapStepConservation H sd c).1.swapAmount = c.swapAmount := by
  rw [swapStepConservation_fst]
  split_ifs <;> rfl

theorem cons_nullifier (H : Hash) (sd : SwapData) (c : CircuitInputs) :
    (swapStepConservation H sd c).1.nullifier = c.nullifier := by
  rw [swapStepConservation_fst]
  split_ifs <;> rfl

theorem cons_inputCommitment (H : Hash) (sd : SwapData) (c : CircuitInputs) :
    (swapStepConservation H sd c).1.inputCommitment = c.inputCommitment := by
  rw [swapStepConservation_fst]
  split_ifs <;> rfl

theorem cons_outputCommitmentSwap (H : Hash) (sd : SwapData) (c : CircuitInputs) :
    (swapStepConservation H sd c).1.outputCommitmentSwap = c.outputCommitmentSwap := by
  rw [swapStepConservation_fst]
  split_ifs <;> rfl

theorem cons_merkleRoot (H : Hash) (sd : SwapData) (c : CircuitInputs) :
    (swapStepConservation H sd c).1.merkleRoot = c.merkleRoot := by
  rw [swapStepConservation_fst]
  split_ifs <;> rfl

theorem cons_outputAmountSwapPublic (H : Hash) (sd : SwapData) (c : CircuitInputs) :
    (swapStepConservation H sd c).1.outputAmountSwapPublic = c.outputAmountSwapPublic := by
  rw [swapStepConservation_fst]
  split_ifs <;> rfl

theorem cons_minOutputAmountSwap (H : Hash) (sd : SwapData) (c : CircuitInputs) :
    (swapStepConservation H sd c).1.minOutputAmountSwap = c.minOutputAmountSwap := by
  rw [swapStepConservation_fst]
  split_ifs <;> rfl

theorem cons_protocolFee (H : Hash) (sd : SwapData) (c : CircuitInputs) :
    (swapStepConservation H sd c).1.protocolFee = c.protocolFee := by
  rw [swapStepConservation_fst]
  split_ifs <;> rfl

theorem cons_gasRefund (H : Hash) (sd : SwapData) (c : CircuitInputs) :
    (swapStepConservation H sd c).1.gasRefund = c.gasRefund := by
  rw [swapStepConservation_fst]
  split_ifs <;> rfl

theorem cons_merklePath (H : Hash) (sd : SwapData) (c : CircuitInputs) :
    (swapStepConservation H sd c).1.merklePath = c.merklePath := by
  rw [swapStepConservation_fst]
  split_ifs <;> rfl

theorem cons_merklePathIndices (H : Hash) (sd : SwapData) (c : CircuitInputs) :
    (swapStepConservation H sd c).1.merklePathIndices = c.merklePathIndices := by
  rw [swapStepConservation_fst]
  split_ifs <;> rfl

theorem swc_inputAssetID (H : Hash) (c : CircuitInputs) :
    (swapStepSwapCommitment H c).1.inputAssetID = c.inputAssetID := by
  rw [swapStepSwapCommitment_fst]

theorem swc_inputAmount (H : Hash) (c : CircuitInputs) :
    (swapStepSwapCommitment H c).1.inputAmount = c.inputAmount := by
  rw [swapStepSwapCommitment_fst]

theorem swc_inputBlindingFactor (H : Hash) (c : CircuitInputs) :
    (swapStepSwapCommitment H c).1.inputBlindingFactor = c.inputBlindingFactor := by
  rw [swapStepSwapCommitment_fst]

theorem swc_ownerPublicKey (H : Hash) (c : CircuitInputs) :
    (swapStepSwapCommitment H c).1.ownerPublicKey = c.ownerPublicKey := by
  rw [swapStepSwapCommitment_fst]

theorem swc_outputAssetIDSwap (H : Hash) (c : CircuitInputs) :
    (swapStepSwapCommitment H c).1.outputAssetIDSwap = c.outputAssetIDSwap := by
  rw [swapStepSwapCommitment_fst]

theorem swc_outputAmountSwap (H : Hash) (c : CircuitInputs) :
    (swapStepSwapCommitment H c).1.outputAmountSwap = c.outputAmountSwap := by
  rw [swapStepSwapCommitment_fst]

theorem swc_swapBlindingFactor (H : Hash) (c : CircuitInputs) :
    (swapStepSwapCommitment H c).1.swapBlindingFactor = c.swapBlindingFactor := by
  rw [swapStepSwapCommitment_fst]

theorem swc_outputAssetIDChange (H : Hash) (c : CircuitInputs) :
    (swapStepSwapCommitment H c).1.outputAssetIDChange = c.outputAssetIDChange := by
  rw [swapStepSwapCommitment_fst]

theorem swc_changeAmount (H : Hash) (c : CircuitInputs) :
    (swapStepSwapCommitment H c).1.changeAmount = c.changeAmount := by
  rw [swapStepSwapCommitment_fst]

theorem swc_changeBlindingFactor (H : Hash) (c : CircuitInputs) :
    (swapStepSwapCommitment H c).1.changeBlindingFactor = c.changeBlindingFactor := by
  rw [swapStepSwapCommitment_fst]

theorem swc_swapAmount (H : Hash) (c : CircuitInputs) :
    (swapStepSwapCommitment H c).1.swapAmount = c.swapAmount := by
  rw [swapStepSwapCommitment_fst]

theorem swc_nullifier (H : Hash) (c : CircuitInputs) :
    (swapStepSwapCommitment H c).1.nullifier = c.nullifier := by
  rw [swapStepSwapCommitment_fst]

theorem swc_inputCommitment (H : Hash) (c : CircuitInputs) :
    (swapStepSwapCommitment H c).1.inputCommitment = c.inputCommitment := by
  rw [swapStepSwapCommitment_fst]

theorem swc_outputCommitmentChange (H : Hash) (c : CircuitInputs) :
    (swapStepSwapCommitment H c).1.outputCommitmentChange = c.outputCommitmentChange := by
  rw [swapStepSwapCommitment_fst]

theorem swc_merkleRoot (H : Hash) (c : CircuitInputs) :
    (swapStepSwapCommitment H c).1.merkleRoot = c.merkleRoot := by
  rw [swapStepSwapCommitment_fst]

theorem swc_outputAmountSwapPublic (H : Hash) (c : CircuitInputs) :
    (swapStepSwapCommitment H c).1.outputAmountSwapPublic = c.outputAmountSwapPublic := by
  rw [swapStepSwapCommitment_fst]

theorem swc_minOutputAmountSwap (H : Hash) (c : CircuitInputs) :
    (swapStepSwapCommitment H c).1.minOutputAmountSwap = c.minOutputAmountSwap := by
  rw [swapStepSwapCommitment_fst]

theorem swc_protocolFee (H : Hash) (c : CircuitInputs) :
    (swapStepSwapCommitment H c).1.protocolFee = c.protocolFee := by
  rw [swapStepSwapCommitment_fst]

theorem swc_gasRefund (H : Hash) (c : CircuitInputs) :
    (swapStepSwapCommitment H c).1.gasRefund = c.gasRefund := by
  rw [swapStepSwapCommitment_fst]

theorem swc_merklePath (H : Hash) (c : CircuitInputs) :
    (swapStepSwapCommitment H c).1.merklePath = c.merklePath := by
  rw [swapStepSwapCommitment_fst]

theorem swc_merklePathIndices (H : Hash) (c : CircuitInputs) :
    (swapStepSwapCommitment H c).1.merklePathIndices = c.merklePathIndices := by
  rw [swapStepSwapCommitment_fst]

theorem chc_inputAssetID (H : Hash) (c : CircuitInputs) :
    (swapStepChangeCommitment H c).1.inputAssetID = c.inputAssetID := by
  rw [swapStepChangeCommitment_fst]

theorem chc_inputAmount (H : Hash) (c : CircuitInputs) :
    (swapStepChangeCommitment H c).1.inputAmount = c.inputAmount := by
  rw [swapStepChangeCommitment_fst]

theorem chc_inputBlindingFactor (H : Hash) (c : CircuitInputs) :
    (swapStepChangeCommitment H c).1.inputBlindingFactor = c.inputBlindingFactor := by
  rw [swapStepChangeCommitment_fst]

theorem chc_ownerPublicKey (H : Hash) (c : CircuitInputs) :
    (swapStepChangeCommitment H c).1.ownerPublicKey = c.ownerPublicKey := by
  rw [swapStepChangeCommitment_fst]

theorem chc_outputAssetIDSwap (H : Hash) (c : CircuitInputs) :
    (swapStepChangeCommitment H c).1.outputAssetIDSwap = c.outputAssetIDSwap := by
  rw [swapStepChangeCommitment_fst]

theorem chc_outputAmountSwap (H : Hash) (c : CircuitInputs) :
    (swapStepChangeCommitment H c).1.outputAmountSwap = c.outputAmountSwap := by
  rw [swapStepChangeCommitment_fst]

theorem chc_swapBlindingFactor (H : Hash) (c : CircuitInputs) :
    (swapStepChangeCommitment H c).1.swapBlindingFactor = c.swapBlindingFactor := by
  rw [swapStepChangeCommitment_fst]

theorem chc_outputAssetIDChange (H : Hash) (c : CircuitInputs) :
    (swapStepChangeCommitment H c).1.outputAssetIDChange = c.outputAssetIDChange := by
  rw [swapStepChangeCommitment_fst]

theorem chc_changeAmount (H : Hash) (c : CircuitInputs) :
    (swapStepChangeCommitment H c).1.changeAmount = c.changeAmount := by
  rw [swapStepChangeCommitment_fst]

theorem chc_changeBlindingFactor (H : Hash) (c : CircuitInputs) :
    (swapStepChangeCommitment H c).1.changeBlindingFactor = c.changeBlindingFactor := by
  rw [swapStepChangeCommitment_fst]

theorem chc_swapAmount (H : Hash) (c : CircuitInputs) :
    (swapStepChangeCommitment H c).1.swapAmount = c.swapAmount := by
  rw [swapStepChangeCommitment_fst]

theorem chc_nullifier (H : Hash) (c : CircuitInputs) :
    (swapStepChangeCommitment H c).1.nullifier = c.nullifier := by
  rw [swapStepChangeCommitment_fst]

theorem chc_inputCommitment (H : Hash) (c : CircuitInputs) :
    (swapStepChangeCommitment H c).1.inputCommitment = c.inputCommitment := by
  rw [swapStepChangeCommitment_fst]

theorem chc_outputCommitmentSwap (H : Hash) (c : CircuitInputs) :
    (swapStepChangeCommitment H c).1.outputCommitmentSwap = c.outputCommitmentSwap := by
  rw [swapStepChangeCommitment_fst]

theorem chc_merkleRoot (H : Hash) (c : CircuitInputs) :
    (swapStepChangeCommitment H c).1.merkleRoot = c.merkleRoot := by
  rw [swapStepChangeCommitment_fst]

theorem chc_outputAmountSwapPublic (H : Hash) (c : CircuitInputs) :
    (swapStepChangeCommitment H c).1.outputAmountSwapPublic = c.outputAmountSwapPublic := by
  rw [swapStepChangeCommitment_fst]

theorem chc_minOutputAmountSwap (H : Hash) (c : CircuitInputs) :
    (swapStepChangeCommitment H c).1.minOutputAmountSwap = c.minOutputAmountSwap := by
  rw [swapStepChangeCommitment_fst]

theorem chc_protocolFee (H : Hash) (c : CircuitInputs) :
    (swapStepChangeCommitment H c).1.protocolFee = c.protocolFee := by
  rw [swapStepChangeCommitment_fst]

theorem chc_gasRefund (H : Hash) (c : CircuitInputs) :
    (swapStepChangeCommitment H c).1.gasRefund = c.gasRefund := by
  rw [swapStepChangeCommitment_fst]

theorem chc_merklePath (H : Hash) (c : CircuitInputs) :
    (swapStepChangeCommitment H c).1.merklePath = c.merklePath := by
  rw [swapStepChangeCommitment_fst]

theorem chc_merklePathIndices (H : Hash) (c : CircuitInputs) :
    (swapStepChangeCommitment H c).1.merklePathIndices = c.merklePathIndices := by
  rw [swapStepChangeCommitment_fst]

theorem aID_outputAssetIDChange (H : Hash) (c : CircuitInputs) :
    (swapStepAssetID H c).1.outputAssetIDChange =
      if c.outputAssetIDChange ≠ c.inputAssetID then c.inputAssetID
      else c.outputAssetIDChange := by
  rw [swapStepAssetID_fst]
  split_ifs <;> rfl

theorem aID_outputCommitmentChange (H : Hash) (c : CircuitInputs) :
    (swapStepAssetID H c).1.outputCommitmentChange =
      if c.outputAssetIDChange ≠ c.inputAssetID then
        mimcCommitment H c.inputAssetID c.changeAmount
          c.changeBlindingFactor c.ownerPublicKey
      else c.outputCommitmentChange := by
  rw [swapStepAssetID_fst]
  split_ifs <;> rfl

theorem nul_nullifier (H : Hash) (c : CircuitInputs) :
    (swapStepNullifier H c).1.nullifier =
      mimcNullifier H c.inputCommitment c.ownerPublicKey := by
  rw [swapStepNullifier_fst]

theorem alg_outputAmountSwapPublic (c : CircuitInputs) :
    (swapStepAlignPublic c).1.outputAmountSwapPublic =
      c.outputAmountSwap := by
  rw [swapStepAlignPublic_fst]

theorem cons_changeAmount (H : Hash) (sd : SwapData) (c : CircuitInputs) :
    (swapStepConservation H sd c).1.changeAmount =
      if sd.inputNote.amount - sd.swapAmount - sd.protocolFee -
          sd.gasRefund ≠ sd.outputNoteChange.amount then
        sd.inputNote.amount - sd.swapAmount - sd.protocolFee - sd.gasRefund
      else c.changeAmount := by
  rw [swapStepConservation_fst]
  split_ifs <;> rfl

theorem cons_outputCommitmentChange (H : Hash) (sd : SwapData)
    (c : CircuitInputs) :
    (swapStepConservation H sd c).1.outputCommitmentChange =
      if sd.inputNote.amount - sd.swapAmount - sd.protocolFee -
          sd.gasRefund ≠ sd.outputNoteChange.amount then
        mimcCommitment H c.outputAssetIDChange
          (sd.inputNote.amount - sd.swapAmount - sd.protocolFee -
            sd.gasRefund) c.changeBlindingFactor c.ownerPublicKey
      else c.outputCommitmentChange := by
  rw [swapStepConservation_fst]
  split_ifs <;> rfl

theorem swc_outputCommitmentSwap (H : Hash) (c : CircuitInputs) :
    (swapStepSwapCommitment H c).1.outputCommitmentSwap =
      mimcCommitment H c.outputAssetIDSwap c.outputAmountSwap
        c.swapBlindingFactor c.ownerPublicKey := by
  rw [swapStepSwapCommitment_fst]

theorem chc_outputCommitmentChange (H : Hash) (c : CircuitInputs) :
    (swapStepChangeCommitment H c).1.outputCommitmentChange =
      mimcCommitment H c.outputAssetIDChange c.changeAmount
        c.changeBlindingFactor c.ownerPublicKey := by
  rw [swapStepChangeCommitment_fst]

end Relayer
namespace Relayer

/-- C6: whenever the supplied change amount violates value conservation
(`inputAmount ≠ swapAmount + changeAmount + protocolFee + gasRefund`,
including by exactly one unit), the built circuit inputs satisfy
`changeAmount = inputAmount − swapAmount − protocolFee − gasRefund` and
the change commitment is the hash of the corrected amount together with
the final change-note fields. -/
theorem claim_C6 (H : Hash) (sd : SwapData)
    (hviol : sd.inputNote.amount ≠ sd.swapAmount +
      sd.outputNoteChange.amount + sd.protocolFee + sd.gasRefund) :
    (buildSwapCircuitInputs H sd).1.changeAmount =
      sd.inputNote.amount - sd.swapAmount - sd.protocolFee -
        sd.gasRefund ∧
    (buildSwapCircuitInputs H sd).1.outputCommitmentChange =
      mimcCommitment H (buildSwapCircuitInputs H sd).1.outputAssetIDChange
        (buildSwapCircuitInputs H sd).1.changeAmount
        (buildSwapCircuitInputs H sd).1.changeBlindingFactor
        (buildSwapCircuitInputs H sd).1.ownerPublicKey := by
  constructor
  · simp only [buildSwap_fst, chc_changeAmount, swc_changeAmount,
      swapStepInputCheck_fst, cons_changeAmount]
    rw [if_pos (by omega : sd.inputNote.amount - sd.swapAmount -
      sd.protocolFee - sd.gasRefund ≠ sd.outputNoteChange.amount)]
  · simp only [buildSwap_fst, chc_outputCommitmentChange,
      chc_outputAssetIDChange, chc_changeAmount, chc_changeBlindingFactor,
      chc_ownerPublicKey]

/-- C6 witness: a transition violating conservation by exactly one unit
(supplied change 41, expected 100 − 50 − 5 − 5 = 40). -/
theorem claim_C6_witness :
    (buildSwapCircuitInputs testHash
      ⟨⟨1, 100, 7, 9, 0, 236⟩, ⟨2, 50, 3, 0⟩, ⟨1, 41, 4, 0⟩,
        0, none, none, 50, 45, 5, 5⟩).1.changeAmount =
      (100 : Int) - 50 - 5 - 5 ∧
    (buildSwapCircuitInputs testHash
      ⟨⟨1, 100, 7, 9, 0, 236⟩, ⟨2, 50, 3, 0⟩, ⟨1, 41, 4, 0⟩,
        0, none, none, 50, 45, 5, 5⟩).1.outputCommitmentChange =
      mimcCommitment testHash
        (buildSwapCircuitInputs testHash
          ⟨⟨1, 100, 7, 9, 0, 236⟩, ⟨2, 50, 3, 0⟩, ⟨1, 41, 4, 0⟩,
            0, none, none, 50, 45, 5, 5⟩).1.outputAssetIDChange
        (buildSwapCircuitInputs testHash
          ⟨⟨1, 100, 7, 9, 0, 236⟩, ⟨2, 50, 3, 0⟩, ⟨1, 41, 4, 0⟩,
            0, none, none, 50, 45, 5, 5⟩).1.changeAmount
        (buildSwapCircuitInputs testHash
          ⟨⟨1, 100, 7, 9, 0, 236⟩, ⟨2, 50, 3, 0⟩, ⟨1, 41, 4, 0⟩,
            0, none, none, 50, 45, 5, 5⟩).1.changeBlindingFactor
        (buildSwapCircuitInputs testHash
          ⟨⟨1, 100, 7, 9, 0, 236⟩, ⟨2, 50, 3, 0⟩, ⟨1, 41, 4, 0⟩,
            0, none, none, 50, 45, 5, 5⟩).1.ownerPublicKey :=
  claim_C6 testHash
    ⟨⟨1, 100, 7, 9, 0, 236⟩, ⟨2, 50, 3, 0⟩, ⟨1, 41, 4, 0⟩,
      0, none, none, 50, 45, 5, 5⟩ (by decide)

/-- C7 (amended): the nullifier and both output commitments are
recomputed from their declared fields and overwritten on mismatch; but
the input note's commitment is only compared and logged — the supplied
value is passed through to proving unchanged. -/
theorem claim_C7 (H : Hash) (sd : SwapData) :
    (buildSwapCircuitInputs H sd).1.nullifier =
      mimcNullifier H sd.inputNote.commitment
        sd.inputNote.ownerPublicKey ∧
    (buildSwapCircuitInputs H sd).1.outputCommitmentSwap =
      mimcCommitment H (buildSwapCircuitInputs H sd).1.outputAssetIDSwap
        (buildSwapCircuitInputs H sd).1.outputAmountSwap
        (buildSwapCircuitInputs H sd).1.swapBlindingFactor
        (buildSwapCircuitInputs H sd).1.ownerPublicKey ∧
    (buildSwapCircuitInputs H sd).1.outputCommitmentChange =
      mimcCommitment H (buildSwapCircuitInputs H sd).1.outputAssetIDChange
        (buildSwapCircuitInputs H sd).1.changeAmount
        (buildSwapCircuitInputs H sd).1.changeBlindingFactor
        (buildSwapCircuitInputs H sd).1.ownerPublicKey ∧
    (buildSwapCircuitInputs H sd).1.inputCommitment =
      sd.inputNote.commitment := by
  refine ⟨?_, ?_, ?_, ?_⟩ <;>
    simp only [buildSwap_fst, chc_outputCommitmentChange, chc_nullifier,
      chc_inputCommitment, chc_ownerPublicKey, chc_outputAssetIDSwap,
      chc_outputAmountSwap, chc_swapBlindingFactor, chc_outputAssetIDChange,
      chc_changeAmount, chc_changeBlindingFactor, chc_outputCommitmentSwap,
      swc_outputCommitmentSwap, swc_nullifier, swc_inputCommitment,
      swc_ownerPublicKey, swc_outputAssetIDSwap, swc_outputAmountSwap,
      swc_swapBlindingFactor, swc_outputAssetIDChange, swc_changeAmount,
      swc_changeBlindingFactor, swc_outputCommitmentChange,
      swapStepInputCheck_fst,
      cons_nullifier, cons_inputCommitment, cons_ownerPublicKey,
      cons_outputAssetIDSwap, cons_outputAmountSwap, cons_swapBlindingFactor,
      cons_outputAssetIDChange, cons_changeBlindingFactor,
      alg_nullifier, alg_inputCommitment, alg_ownerPublicKey,
      alg_outputAssetIDSwap, alg_outputAmountSwap, alg_swapBlindingFactor,
      alg_outputAssetIDChange, alg_changeAmount, alg_changeBlindingFactor,
      alg_outputCommitmentSwap, alg_outputCommitmentChange,
      nul_nullifier, nul_inputCommitment, nul_ownerPublicKey,
      nul_outputAssetIDSwap, nul_outputAmountSwap, nul_swapBlindingFactor,
      nul_outputAssetIDChange, nul_changeAmount, nul_changeBlindingFactor,
      nul_outputCommitmentSwap, nul_outputCommitmentChange,
      aID_inputCommitment, aID_ownerPublicKey, aID_nullifier,
      aID_outputAssetIDSwap, aID_outputAmountSwap, aID_swapBlindingFactor,
      aID_changeAmount, aID_changeBlindingFactor, aID_outputCommitmentSwap,
      initialCircuitInputs, mimcNullifier, mimcCommitment]

/-- C7 counterexample to the claim as stated: for a swap transition whose
input-note commitment (999) does not match the hash recomputed over its
own declared fields (236 with the test hash), the builder passes the
supplied value through unchanged — it only logs the mismatch. -/
theorem claim_C7_counterexample :
    (buildSwapCircuitInputs testHash
      ⟨⟨1, 100, 7, 9, 0, 999⟩, ⟨2, 50, 3, 0⟩, ⟨1, 40, 4, 0⟩,
        0, none, none, 50, 45, 5, 5⟩).1.inputCommitment = 999 ∧
    mimcCommitment testHash 1 100 7 9 ≠ 999 ∧
    LogEvent.inputCommitmentMismatch (mimcCommitment testHash 1 100 7 9)
      999 ∈
      (buildSwapCircuitInputs testHash
        ⟨⟨1, 100, 7, 9, 0, 999⟩, ⟨2, 50, 3, 0⟩, ⟨1, 40, 4, 0⟩,
          0, none, none, 50, 45, 5, 5⟩).2 := by
  decide

end Relayer

namespace Relayer

/-! ### The Merkle self-check of `generateSwapProof` (field arithmetic)

`FIELD` is exported by `mimc7.js`, which is not among the sources. -/

/-- Modelled from the spec: "modular add/sub/mul over the proving system's
prime field" — the BN254/alt_bn128 scalar field prime used by the Groth16
tooling the code invokes (`snarkjs`). -/
def FIELD : Int :=
  21888242871839275222246405745257275088548364400416034343698204186575808495617

/-- JS `(a + b) % FIELD` (truncated remainder). -/
def fieldAdd (a b : Int) : Int := Int.tmod (a + b) FIELD

/-- JS `(a - b) % FIELD` with explicit negative-result correction. -/
def fieldSub (a b : Int) : Int :=
  let r := Int.tmod (a - b) FIELD
  if r < 0 then r + FIELD else r

/-- JS `(a * b) % FIELD`. -/
def fieldMul (a b : Int) : Int := Int.tmod (a * b) FIELD

/-- The builder's independent Merkle-root recomputation from the supplied
path (lines preceding proof generation): ten levels of
`left/right` selection by the index bit through field arithmetic, then the
compression function. -/
def merkleSelfCheckRoot (H : Hash) (ci : CircuitInputs) : Int :=
  (List.range 10).foldl
    (fun computedRoot i =>
      let pathValue := ci.merklePath.getD i 0
      let idx := ci.merklePathIndices.getD i 0
      let leftDiff := fieldSub pathValue computedRoot
      let left := fieldAdd computedRoot (fieldMul idx leftDiff)
      let rightDiff := fieldSub computedRoot pathValue
      let right := fieldAdd pathValue (fieldMul idx rightDiff)
      H left right)
    ci.inputCommitment

/-- Whether `generateSwapProof` reaches the proving backend with the built
inputs, or aborts beforehand. -/
inductive SwapOutcome
  | proceed (ci : CircuitInputs)
  | abort (reason : String)
deriving DecidableEq

/-- The control flow of `generateSwapProof` around the Merkle self-check:
compare the recomputed root with the supplied one, log the outcome, and
continue to the proving backend either way.  (The further circuit-style
recomputation and the witness-generation attempt are additional non-fatal
diagnostics on the same path; `DEV_BYPASS_PROOFS` is a configuration
bypass that returns a stub before this check.) -/
def generateSwapProofFlow (H : Hash) (sd : SwapData) :
    SwapOutcome × List LogEvent :=
  let b := buildSwapCircuitInputs H sd
  let computedRoot := merkleSelfCheckRoot H b.1
  if computedRoot ≠ b.1.merkleRoot then
    (.proceed b.1, b.2 ++ [.rootMismatch computedRoot b.1.merkleRoot])
  else
    (.proceed b.1, b.2 ++ [.rootMatch])

/-- C8: after the field-arithmetic Merkle-root recomputation is compared
with the supplied root, the flow proceeds to the proving backend with the
built circuit inputs regardless of the outcome; a mismatch is only
logged. -/
theorem claim_C8 (H : Hash) (sd : SwapData) :
    (generateSwapProofFlow H sd).1 =
      .proceed (buildSwapCircuitInputs H sd).1 ∧
    (merkleSelfCheckRoot H (buildSwapCircuitInputs H sd).1 ≠
        (buildSwapCircuitInputs H sd).1.merkleRoot →
      LogEvent.rootMismatch
        (merkleSelfCheckRoot H (buildSwapCircuitInputs H sd).1)
        (buildSwapCircuitInputs H sd).1.merkleRoot ∈
        (generateSwapProofFlow H sd).2) := by
  constructor
  · simp only [generateSwapProofFlow]
    by_cases hm : merkleSelfCheckRoot H (buildSwapCircuitInputs H sd).1 ≠
        (buildSwapCircuitInputs H sd).1.merkleRoot
    · rw [if_pos hm]
    · rw [if_neg hm]
  · intro hm
    simp only [generateSwapProofFlow]
    rw [if_pos hm]
    simp

/-- C8 witness: a concrete transition whose recomputed root differs from
the supplied root still proceeds, with the mismatch logged. -/
theorem claim_C8_witness :
    (generateSwapProofFlow testHash
      ⟨⟨1, 100, 7, 9, 0, 236⟩, ⟨2, 50, 3, 0⟩, ⟨1, 40, 4, 0⟩,
        0, none, none, 50, 45, 5, 5⟩).1 =
      .proceed (buildSwapCircuitInputs testHash
        ⟨⟨1, 100, 7, 9, 0, 236⟩, ⟨2, 50, 3, 0⟩, ⟨1, 40, 4, 0⟩,
          0, none, none, 50, 45, 5, 5⟩).1 ∧
    LogEvent.rootMismatch
      (merkleSelfCheckRoot testHash (buildSwapCircuitInputs testHash
        ⟨⟨1, 100, 7, 9, 0, 236⟩, ⟨2, 50, 3, 0⟩, ⟨1, 40, 4, 0⟩,
          0, none, none, 50, 45, 5, 5⟩).1)
      (buildSwapCircuitInputs testHash
        ⟨⟨1, 100, 7, 9, 0, 236⟩, ⟨2, 50, 3, 0⟩, ⟨1, 40, 4, 0⟩,
          0, none, none, 50, 45, 5, 5⟩).1.merkleRoot ∈
      (generateSwapProofFlow testHash
        ⟨⟨1, 100, 7, 9, 0, 236⟩, ⟨2, 50, 3, 0⟩, ⟨1, 40, 4, 0⟩,
          0, none, none, 50, 45, 5, 5⟩).2 :=
  ⟨(claim_C8 testHash
      ⟨⟨1, 100, 7, 9, 0, 236⟩, ⟨2, 50, 3, 0⟩, ⟨1, 40, 4, 0⟩,
        0, none, none, 50, 45, 5, 5⟩).1,
   (claim_C8 testHash
      ⟨⟨1, 100, 7, 9, 0, 236⟩, ⟨2, 50, 3, 0⟩, ⟨1, 40, 4, 0⟩,
        0, none, none, 50, 45, 5, 5⟩).2 (by decide)⟩

end Relayer

namespace Relayer

/-! ### Public-input normalizers (`index.js` + `utils/bigint.js`)

`toBigInt` accepts null/empty (0), bigints and numbers (possibly
negative), byte arrays (throwing on an invalid byte), and strings — hex
with `0x`, decimal, comma-separated byte or digit lists, or the final
`BigInt(String(value))` fallback.  The string micro-syntax is abstracted:
a string constructor carries the integer its text denotes. -/

/-- A JavaScript value as `toBigInt` distinguishes them. -/
inductive JSValue
  | nullV
  | bigV (i : Int)
  | numV (i : Int)
  | bytesV (bs : List Int)
  | strV (i : Int)
deriving DecidableEq

/-- `toBigInt` from `utils/bigint.js` (value level). -/
def toBigInt : JSValue → Except String Int
  | .nullV => .ok 0
  | .bigV i => .ok i
  | .numV i => .ok i
  | .bytesV bs =>
    if bs.all (fun b => decide (0 ≤ b ∧ b ≤ 255)) then
      .ok (bs.foldl (fun acc b => acc * 256 + b) 0)
    else .error "Invalid byte value"
  | .strV i => .ok i

/-- `toBigIntString`: decimal rendering of `toBigInt`. -/
def toBigIntString (v : JSValue) : Except String String :=
  (toBigInt v).map toString

/-- JS `Array.prototype.map` where the callback can throw. -/
def mapExcept (f : α → Except String β) : List α → Except String (List β)
  | [] => .ok []
  | a :: as => do
    let b ← f a
    let bs ← mapExcept f as
    .ok (b :: bs)

/-- `normalizeMerklePath` from `index.js`: non-arrays become ten `"0"`s;
otherwise the first ten entries pass through `toBigIntString` and the
result is padded with `"0"` to length ten. -/
def normalizeMerklePath (path : Option (List JSValue)) :
    Except String (List String) :=
  match path with
  | none => .ok (List.replicate 10 "0")
  | some l => do
    let formatted ← mapExcept toBigIntString (l.take 10)
    .ok (formatted ++ List.replicate (10 - formatted.length) "0")

/-- `normalizeMerkleIndices` from `index.js`: entries are
`String(toBigInt(v) % 2n)` (truncated remainder), padded with `"0"`. -/
def normalizeMerkleIndices (indices : Option (List JSValue)) :
    Except String (List String) :=
  match indices with
  | none => .ok (List.replicate 10 "0")
  | some l => do
    let formatted ← mapExcept
      (fun v => do
        let n ← toBigInt v
        .ok (toString (Int.tmod n 2)))
      (l.take 10)
    .ok (formatted ++ List.replicate (10 - formatted.length) "0")

/-- `normalizeJoinSplitPublicInputs` from `index.js`: both arrays are
normalized, then `15 + |path| + |indices|` is checked against 35. -/
def normalizeJoinSplitPublicInputs (path indices : Option (List JSValue))
    (label : String) : Except String (List String × List String) := do
  let merklePath ← normalizeMerklePath path
  let merklePathIndices ← normalizeMerkleIndices indices
  let count := 15 + merklePath.length + merklePathIndices.length
  if count ≠ 35 then
    .error (label ++ ": publicInputs must be 35 elements (got " ++
      toString count ++ ")")
  else
    .ok (merklePath, merklePathIndices)

theorem mapExcept_length (f : α → Except String β) :
    ∀ (xs : List α) (ys : List β), mapExcept f xs = .ok ys →
      ys.length = xs.length := by
  intro xs
  induction xs with
  | nil =>
    intro ys h
    cases h
    rfl
  | cons a as ih =>
    intro ys h
    rw [mapExcept] at h
    cases hf : f a with
    | error e =>
      rw [hf] at h
      exact absurd h (fun hcon => by
        have hbad : (Except.error e : Except String (List β)) = .ok ys :=
          hcon
        cases hbad)
    | ok b =>
      rw [hf] at h
      cases hr : mapExcept f as with
      | error e =>
        rw [hr] at h
        exact absurd h (fun hcon => by
          have hbad : (Except.error e : Except String (List β)) = .ok ys :=
            hcon
          cases hbad)
      | ok bs =>
        rw [hr] at h
        have hys : ys = b :: bs := by
          have h2 : (Except.ok (b :: bs) :
            Except String (List β)) = .ok ys := h
          cases h2
          rfl
        subst hys
        simp [ih bs hr]

theorem mapExcept_forall (f : α → Except String β) (P : β → Prop)
    (hf : ∀ a b, f a = .ok b → P b) :
    ∀ (xs : List α) (ys : List β), mapExcept f xs = .ok ys →
      ∀ y ∈ ys, P y := by
  intro xs
  induction xs with
  | nil =>
    intro ys h
    cases h
    intro y hy
    exact absurd hy (by simp)
  | cons a as ih =>
    intro ys h
    rw [mapExcept] at h
    cases hfa : f a with
    | error e =>
      rw [hfa] at h
      exact absurd h (fun hcon => by
        have hbad : (Except.error e : Except String (List β)) = .ok ys :=
          hcon
        cases hbad)
    | ok b =>
      rw [hfa] at h
      cases hr : mapExcept f as with
      | error e =>
        rw [hr] at h
        exact absurd h (fun hcon => by
          have hbad : (Except.error e : Except String (List β)) = .ok ys :=
            hcon
          cases hbad)
      | ok bs =>
        rw [hr] at h
        have hys : ys = b :: bs := by
          have h2 : (Except.ok (b :: bs) :
            Except String (List β)) = .ok ys := h
          cases h2
          rfl
        subst hys
        intro y hy
        rcases List.mem_cons.mp hy with hy | hy
        · subst hy
          exact hf a y hfa
        · exact ih bs hr y hy

theorem tmod_two_cases (n : Int) :
    Int.tmod n 2 = -1 ∨ Int.tmod n 2 = 0 ∨ Int.tmod n 2 = 1 := by
  rcases le_or_lt 0 n with hn | hn
  · rw [Int.tmod_eq_emod hn (by norm_num : (0 : Int) ≤ 2)]
    have := Int.emod_two_eq n
    omega
  · have hm : 0 ≤ -n := by omega
    have h1 : Int.tmod (-n) 2 = (-n) % 2 :=
      Int.tmod_eq_emod hm (by norm_num)
    have h2 := Int.emod_two_eq (-n)
    have h3 := Int.tmod_add_tdiv n 2
    have h4 := Int.tmod_add_tdiv (-n) 2
    have h5 : (-n).tdiv 2 = -(n.tdiv 2) := Int.neg_tdiv n 2
    omega

end Relayer

namespace Relayer

theorem normalizeMerklePath_length (p : Option (List JSValue))
    (l : List String) (h : normalizeMerklePath p = .ok l) :
    l.length = 10 := by
  cases p with
  | none =>
    have h2 : (Except.ok (List.replicate 10 "0") :
        Except String (List String)) = .ok l := h
    cases h2
    simp
  | some xs =>
    rw [normalizeMerklePath] at h
    cases hm : mapExcept toBigIntString (xs.take 10) with
    | error e =>
      rw [hm] at h
      exact absurd h (fun hcon => by
        have hbad : (Except.error e : Except String (List String)) =
          .ok l := hcon
        cases hbad)
    | ok fo =>
      rw [hm] at h
      have h2 : (Except.ok (fo ++ List.replicate (10 - fo.length) "0") :
          Except String (List String)) = .ok l := h
      cases h2
      have hlen : fo.length ≤ 10 := by
        rw [mapExcept_length _ _ _ hm, List.length_take]
        omega
      simp only [List.length_append, List.length_replicate]
      omega

theorem normalizeMerkleIndices_length (q : Option (List JSValue))
    (l : List String) (h : normalizeMerkleIndices q = .ok l) :
    l.length = 10 := by
  cases q with
  | none =>
    have h2 : (Except.ok (List.replicate 10 "0") :
        Except String (List String)) = .ok l := h
    cases h2
    simp
  | some xs =>
    rw [normalizeMerkleIndices] at h
    cases hm : mapExcept
        (fun v => do
          let n ← toBigInt v
          Except.ok (toString (Int.tmod n 2)))
        (xs.take 10) with
    | error e =>
      rw [hm] at h
      exact absurd h (fun hcon => by
        have hbad : (Except.error e : Except String (List String)) =
          .ok l := hcon
        cases hbad)
    | ok fo =>
      rw [hm] at h
      have h2 : (Except.ok (fo ++ List.replicate (10 - fo.length) "0") :
          Except String (List String)) = .ok l := h
      cases h2
      have hlen : fo.length ≤ 10 := by
        rw [mapExcept_length _ _ _ hm, List.length_take]
        omega
      simp only [List.length_append, List.length_replicate]
      omega

end Relayer

namespace Relayer

/-- C10 (amended): both normalizers return arrays of exactly ten decimal
strings; every index element is `String(toBigInt(v) % 2n)`, which is
`"0"`, `"1"`, or — for a negative odd input such as a negative JSON
number — `"-1"`; consequently `normalizeJoinSplitPublicInputs` always
counts `15 + 10 + 10 = 35` elements and its "publicInputs must be 35
elements" error branch can never fire. -/
theorem claim_C10 :
    (∀ (p : Option (List JSValue)) (l : List String),
      normalizeMerklePath p = .ok l →
      l.length = 10 ∧ ∀ s ∈ l, ∃ i : Int, s = toString i) ∧
    (∀ (q : Option (List JSValue)) (l : List String),
      normalizeMerkleIndices q = .ok l →
      l.length = 10 ∧ ∀ s ∈ l, s = "0" ∨ s = "1" ∨ s = "-1") ∧
    (∀ (p q : Option (List JSValue)) (label : String),
      normalizeJoinSplitPublicInputs p q label =
        (normalizeMerklePath p).bind fun mp =>
          (normalizeMerkleIndices q).bind fun mpi =>
            .ok (mp, mpi)) := by
  refine ⟨?_, ?_, ?_⟩
  · intro p l h
    refine ⟨normalizeMerklePath_length p l h, ?_⟩
    cases p with
    | none =>
      have h2 : (Except.ok (List.replicate 10 "0") :
          Except String (List String)) = .ok l := h
      cases h2
      intro s hs
      rw [List.eq_of_mem_replicate hs]
      exact ⟨0, rfl⟩
    | some xs =>
      rw [normalizeMerklePath] at h
      cases hm : mapExcept toBigIntString (xs.take 10) with
      | error e =>
        rw [hm] at h
        exact absurd h (fun hcon => by
          have hbad : (Except.error e : Except String (List String)) =
            .ok l := hcon
          cases hbad)
      | ok fo =>
        rw [hm] at h
        have h2 : (Except.ok (fo ++ List.replicate (10 - fo.length) "0") :
            Except String (List String)) = .ok l := h
        cases h2
        intro s hs
        rcases List.mem_append.mp hs with hs | hs
        · refine mapExcept_forall toBigIntString
            (fun s => ∃ i : Int, s = toString i) ?_ _ _ hm s hs
          intro a b hab
          rw [toBigIntString] at hab
          cases ha : toBigInt a with
          | error e =>
            rw [ha] at hab
            exact absurd hab (fun hcon => by
              have hbad : (Except.error e : Except String String) =
                .ok b := hcon
              cases hbad)
          | ok i =>
            rw [ha] at hab
            have h3 : (Except.ok (toString i) :
                Except String String) = .ok b := hab
            cases h3
            exact ⟨i, rfl⟩
        · rw [List.eq_of_mem_replicate hs]
          exact ⟨0, rfl⟩
  · intro q l h
    refine ⟨normalizeMerkleIndices_length q l h, ?_⟩
    cases q with
    | none =>
      have h2 : (Except.ok (List.replicate 10 "0") :
          Except String (List String)) = .ok l := h
      cases h2
      intro s hs
      rw [List.eq_of_mem_replicate hs]
      exact Or.inl rfl
    | some xs =>
      rw [normalizeMerkleIndices] at h
      cases hm : mapExcept
          (fun v => do
            let n ← toBigInt v
            Except.ok (toString (Int.tmod n 2)))
          (xs.take 10) with
      | error e =>
        rw [hm] at h
        exact absurd h (fun hcon => by
          have hbad : (Except.error e : Except String (List String)) =
            .ok l := hcon
          cases hbad)
      | ok fo =>
        rw [hm] at h
        have h2 : (Except.ok (fo ++ List.replicate (10 - fo.length) "0") :
            Except String (List String)) = .ok l := h
        cases h2
        intro s hs
        rcases List.mem_append.mp hs with hs | hs
        · refine mapExcept_forall _
            (fun s => s = "0" ∨ s = "1" ∨ s = "-1") ?_ _ _ hm s hs
          intro a b hab
          cases ha : toBigInt a with
          | error e =>
            rw [ha] at hab
            exact absurd hab (fun hcon => by
              have hbad : (Except.error e : Except String String) =
                .ok b := hcon
              cases hbad)
          | ok n =>
            rw [ha] at hab
            have h3 : (Except.ok (toString (Int.tmod n 2)) :
                Except String String) = .ok b := hab
            cases h3
            rcases tmod_two_cases n with hn | hn | hn <;> rw [hn]
            · exact Or.inr (Or.inr rfl)
            · exact Or.inl rfl
            · exact Or.inr (Or.inl rfl)
        · rw [List.eq_of_mem_replicate hs]
          exact Or.inl rfl
  · intro p q label
    rw [normalizeJoinSplitPublicInputs]
    cases hp : normalizeMerklePath p with
    | error e => rfl
    | ok mp =>
      cases hq : normalizeMerkleIndices q with
      | error e => rfl
      | ok mpi =>
        have hlp := normalizeMerklePath_length p mp hp
        have hlq := normalizeMerkleIndices_length q mpi hq
        show (if 15 + mp.length + mpi.length ≠ 35 then _ else _) = _
        rw [if_neg (by omega)]
        rfl

/-- C10 counterexample to the claim as stated: a negative numeric index
entry yields `"-1"`, not `"0"` or `"1"` (JS `-1n % 2n = -1n`). -/
theorem claim_C10_counterexample :
    normalizeMerkleIndices (some [JSValue.numV (-1)]) =
      .ok ("-1" :: List.replicate 9 "0") ∧
    ("-1" : String) ≠ "0" ∧ ("-1" : String) ≠ "1" := by
  refine ⟨rfl, by decide, by decide⟩

/-- C10 witness: a one-element hex path normalizes to ten decimal
strings. -/
theorem claim_C10_witness :
    ("3" :: List.replicate 9 "0").length = 10 ∧
    (∀ s ∈ ("3" :: List.replicate 9 "0"), ∃ i : Int, s = toString i) :=
  claim_C10.1 (some [JSValue.strV 3]) ("3" :: List.replicate 9 "0") rfl

end Relayer
